import Mathlib

/-!
Verification of the Text2SQL step-graph orchestration engine.

Shallow embedding of the normalizer (`SQLValidator.clean_sql_query`,
`SQLValidator._ensure_limit`), the step implementations
(`SQLGenerator.generate_sql`, `SQLValidator.validate_sql_query`,
`SQLExecutor.execute_sql`, `SummaryGenerator.generate_summary`,
`FollowupQuestionGenerator.generate_followup_questions`,
`WorkflowOrchestrator._handle_unanswerable`) and the router/loop of
`WorkflowOrchestrator` (`_check_condition`, `_build_workflow`).

Text is modelled as Lean `String` (a structure over `List Char`); the
character-level transformations mirror the Python string operations on the
ASCII characters the source manipulates (Python's `str.strip` with no
arguments is modelled on the six ASCII whitespace characters).  External
collaborators (LLM completions, database execution, metadata loading) are
modelled as explicit oracle values/functions, and Python exceptions as
`Except` values.
-/

namespace Text2SQL

/-- ASCII whitespace stripped by Python's `str.strip()` / `str.rstrip()`. -/
def isPySpace (c : Char) : Bool :=
  c == ' ' || c == '\t' || c == '\n' || c == '\r' || c == '\x0b' || c == '\x0c'

/-- ASCII decimal digit, as matched by `\d` in the source's regex. -/
def isDigitC (c : Char) : Bool :=
  '0' ≤ c && c ≤ '9'

/-- ASCII word character, as matched by `\w` (relevant for the `\b` boundary
in the regex `\bLIMIT\s+(\d+)\s*$`). -/
def isWordC (c : Char) : Bool :=
  ('a' ≤ c && c ≤ 'z') || ('A' ≤ c && c ≤ 'Z') || isDigitC c || c == '_'

/-- `str.lstrip()`: drop leading whitespace. -/
def lstripWS (l : List Char) : List Char :=
  l.dropWhile isPySpace

/-- `str.rstrip()`: drop trailing whitespace. -/
def rstripWS (l : List Char) : List Char :=
  (l.reverse.dropWhile isPySpace).reverse

/-- `str.rstrip(';')`: drop every trailing semicolon. -/
def rstripSemi (l : List Char) : List Char :=
  (l.reverse.dropWhile (· == ';')).reverse

/-- `str.strip()`: drop leading and trailing whitespace. -/
def stripWS (l : List Char) : List Char :=
  lstripWS (rstripWS l)

/-- Decimal digits of a natural number, by repeated division (fuel-indexed so
that the definition reduces inside the kernel; `n + 1` units of fuel always
suffice). -/
def natDigitsAux : Nat → Nat → List Char
  | 0, _ => []
  | fuel + 1, n =>
      if n < 10 then [Nat.digitChar n]
      else natDigitsAux fuel (n / 10) ++ [Nat.digitChar (n % 10)]

/-- Decimal digits of a natural number, as produced by Python's
`f"LIMIT {max_rows}"` formatting. -/
def natDigits (n : Nat) : List Char :=
  natDigitsAux (n + 1) n

/-- Value of a digit character. -/
def digitVal (c : Char) : Nat := c.toNat - '0'.toNat

/-- `int(...)` on a string of decimal digits. -/
def digitsToNat (ds : List Char) : Nat :=
  ds.foldl (fun n c => n * 10 + digitVal c) 0

/-- A successful match of the regex `\bLIMIT\s+(\d+)\s*$` against a text with
no trailing whitespace: the text splits as `pre ++ lw ++ ws ++ ds` where `lw`
spells `LIMIT` case-insensitively, `ws` is the whitespace run, `ds` the digit
group, and `pre` respects the word boundary. -/
structure LimitMatch where
  pre : List Char
  lw : List Char
  ws : List Char
  ds : List Char
deriving DecidableEq, Repr

/-- `limit_pattern.search(working_query)` on an `rstrip`-ped text: looks for a
trailing `LIMIT <digits>` clause (case-insensitive, `\b` word boundary before
`LIMIT`).  Computed from the reversed character list. -/
def matchLimit (w : List Char) : Option LimitMatch :=
  let r := w.reverse
  let dsr := r.takeWhile isDigitC
  if dsr.isEmpty then none else
  let r1 := r.drop dsr.length
  let wsr := r1.takeWhile isPySpace
  if wsr.isEmpty then none else
  let r2 := r1.drop wsr.length
  let lwr := r2.take 5
  if lwr.map Char.toLower = ['t', 'i', 'm', 'i', 'l'] then
    let rest := r2.drop 5
    match rest.head? with
    | none => some ⟨[], lwr.reverse, wsr.reverse, dsr.reverse⟩
    | some c =>
        if isWordC c then none
        else some ⟨rest.reverse, lwr.reverse, wsr.reverse, dsr.reverse⟩
  else none

/-- `working_query = sql_query.rstrip().rstrip(';').rstrip()` from
`SQLValidator._ensure_limit`. -/
def semiPrep (q : List Char) : List Char :=
  rstripWS (rstripSemi (rstripWS q))

/-- The branch of `_ensure_limit` after the semicolon strip: adjust or append
the `LIMIT` clause.  `limit_pattern.sub(f'LIMIT {max_rows}', working_query)`
replaces the matched region (the `\b` is zero-width, so `pre` is kept). -/
def ensureCore (maxRows : Nat) (w : List Char) : List Char :=
  match matchLimit w with
  | some mt =>
      if digitsToNat mt.ds > maxRows then
        mt.pre ++ ("LIMIT ".data) ++ natDigits maxRows
      else w
  | none => w ++ (" LIMIT ".data) ++ natDigits maxRows

/-- `SQLValidator._ensure_limit(sql_query, max_rows)`. -/
def ensureLimit (maxRows : Nat) (q : List Char) : List Char :=
  if q.isEmpty then q
  else ensureCore maxRows (semiPrep q)

/-- The markdown-fence stripping and trimming part of
`SQLValidator.clean_sql_query` (steps before `_ensure_limit`). -/
def cleanBody (q : List Char) : List Char :=
  let c1 := stripWS q
  let c2 :=
    if c1.take 3 = "```".data then
      if c1.contains '\n' then (c1.dropWhile (· != '\n')).drop 1
      else c1.drop 3
    else c1
  let c3 := if c2.reverse.take 3 = "```".data then (c2.reverse.drop 3).reverse else c2
  stripWS c3

/-- `SQLValidator.clean_sql_query` on character lists, generalised over the
row cap (the source fixes `max_rows = MAX_QUERY_ROWS = 1000`). -/
def cleanChars (maxRows : Nat) (q : List Char) : List Char :=
  if q.isEmpty then []
  else ensureLimit maxRows (cleanBody q)

/-- `normalize(raw_text, max_rows)`: the composition implemented by
`SQLValidator.clean_sql_query` / `SQLValidator._ensure_limit`. -/
def clean_sql_query (maxRows : Nat) (q : String) : String :=
  ⟨cleanChars maxRows q.data⟩

/-- A Python value passed where a SQL string is expected: either a `str`, or a
non-string value (e.g. `None`), rejected by the
`isinstance(sql_query, str)` guard. -/
inductive PyVal where
  | pyStr (s : String)
  | nonText
deriving DecidableEq

/-- `SQLValidator.clean_sql_query` including the
`if not sql_query or not isinstance(sql_query, str): return ""` guard. -/
def cleanVal (maxRows : Nat) : PyVal → String
  | .pyStr s => clean_sql_query maxRows s
  | .nonText => ""

example : clean_sql_query 1000 "```sql\nSELECT 1;\n```" = "SELECT 1 LIMIT 1000" := by
  decide

example : clean_sql_query 1000 "SELECT 1 LIMIT 5000" = "SELECT 1 LIMIT 1000" := by
  decide

example : clean_sql_query 1000 "" = "" := by decide

example : clean_sql_query 1000 ";" = " LIMIT 1000" := by decide

/-! ## String helpers shared by the step implementations -/

/-- `str.strip()` on a `String`. -/
def pyStripS (s : String) : String := ⟨stripWS s.data⟩

/-- `str.upper()` (the source only manipulates ASCII markers). -/
def pyUpper (s : String) : String := ⟨s.data.map Char.toUpper⟩

/-- `pat` occurs as a leading segment of `s` (Python `str.startswith`). -/
def startsWithL : List Char → List Char → Bool
  | [], _ => true
  | _ :: _, [] => false
  | p :: ps, c :: cs => p == c && startsWithL ps cs

/-- `pat in s` (Python substring containment). -/
def containsSub (pat : List Char) : List Char → Bool
  | [] => pat.isEmpty
  | c :: t => startsWithL pat (c :: t) || containsSub pat t

/-- Fuel-indexed helper for `replaceAll`; `s.length` units of fuel always
suffice because each step consumes at least one character. -/
def replaceAllAux (pat rep : List Char) : Nat → List Char → List Char
  | _, [] => []
  | 0, s => s
  | fuel + 1, c :: t =>
      if !pat.isEmpty && startsWithL pat (c :: t) then
        rep ++ replaceAllAux pat rep fuel ((c :: t).drop pat.length)
      else c :: replaceAllAux pat rep fuel t

/-- `s.replace(pat, rep)`: replace every non-overlapping occurrence of `pat`,
left to right.  (The source only calls this with the non-empty literal
`"UNANSWERABLE:"`; an empty `pat` leaves `s` unchanged here.) -/
def replaceAll (pat rep s : List Char) : List Char :=
  replaceAllAux pat rep s.length s

/-- `s.replace(pat, rep)` on `String`s. -/
def replaceAllS (s pat rep : String) : String := ⟨replaceAll pat.data rep.data s.data⟩

/-- `str.split(sep)` for a one-character separator, keeping empty pieces
(Python semantics). -/
def splitOnChar (sep : Char) : List Char → List (List Char)
  | [] => [[]]
  | c :: t =>
      let r := splitOnChar sep t
      if c == sep then [] :: r
      else
        match r with
        | [] => [[c]]
        | h :: rt => (c :: h) :: rt

/-- Join character lists with a separator (Python `sep.join`). -/
def joinCharLists (sep : List Char) : List (List Char) → List Char
  | [] => []
  | [x] => x
  | x :: y :: rest => x ++ sep ++ joinCharLists sep (y :: rest)

/-- `str(n)` for a natural number. -/
def natToStr (n : Nat) : String := ⟨natDigits n⟩

/-! ## Shared state, collaborators and step implementations -/

/-- A result row, modelled by its ordered column names (`row.keys()`); the
claims under verification never inspect cell values. -/
abbrev Row := List String

/-- The `Text2SQLState` TypedDict (`total=False`: every field optional). -/
structure Text2SQLState where
  metadata : Option String := none
  input_text : Option String := none
  generated_sql_query : Option String := none
  cleaned_query : Option String := none
  is_valid_sql : Option Bool := none
  is_unanswerable : Option Bool := none
  unanswerable_reason : Option String := none
  data : Option (List Row) := none
  summary : Option String := none
  chart : Option String := none
  followup_que : Option (List String) := none
  max_iterations : Option Nat := none
  retry_count : Option Nat := none
deriving DecidableEq

/-- Categorized `LLMClientException` reasons raised by `LLMClient`. -/
inductive LlmErr where
  | rateLimited
  | connectionFailed
  | apiError
  | emptyResponse
  | wrapped (msg : String)
deriving DecidableEq

instance {ε α : Type} [DecidableEq ε] [DecidableEq α] : DecidableEq (Except ε α) :=
  fun x y =>
    match x, y with
    | .ok a, .ok b =>
        if h : a = b then .isTrue (by rw [h])
        else .isFalse (by intro hh; cases hh; exact h rfl)
    | .error a, .error b =>
        if h : a = b then .isTrue (by rw [h])
        else .isFalse (by intro hh; cases hh; exact h rfl)
    | .ok _, .error _ => .isFalse (by intro hh; cases hh)
    | .error _, .ok _ => .isFalse (by intro hh; cases hh)

/-- A database failure surfaced by `DatabaseClient.execute_query`. -/
inductive DbErr where
  | failure (msg : String)
deriving DecidableEq

/-- `MetadataLoadException` from `MetadataLoader.load_metadata`. -/
inductive MetaErr where
  | loadFailed (msg : String)
deriving DecidableEq

/-- `SQLExecutionException` reasons in `SQLExecutor.execute_sql`. -/
inductive ExecErr where
  | noQueryAvailable
  | db (e : DbErr)
deriving DecidableEq

/-- `generated_sql_query.strip().upper().startswith("UNANSWERABLE")`. -/
def isRefusal (s : String) : Bool :=
  startsWithL ("UNANSWERABLE".data) (pyUpper (pyStripS s)).data

/-- The partial update returned by `SQLGenerator.generate_sql` (`none` fields
are keys absent from the returned dict). -/
structure GenResult where
  generated_sql_query : String
  is_unanswerable : Option Bool
  unanswerable_reason : Option String
deriving DecidableEq

/-- `SQLGenerator.generate_sql`.  `resp` is the completion provider's answer
(`Except.error` models a raised `LLMClientException`, which the source
re-raises); the `ValueError`s for missing input/metadata are wrapped into an
`LLMClientException` by the generic handler. -/
def generate_sql (resp : Except LlmErr String) (st : Text2SQLState) :
    Except LlmErr GenResult :=
  let it := st.input_text.getD ""
  let md := st.metadata.getD ""
  if it = "" then .error (.wrapped "input_text is required in state")
  else if md = "" then .error (.wrapped "metadata is required in state")
  else
    match resp with
    | .error e => .error e
    | .ok g =>
        if isRefusal g then
          .ok ⟨"", some true, some (pyStripS (replaceAllS g "UNANSWERABLE:" ""))⟩
        else .ok ⟨g, none, none⟩

/-- `SQLValidator.validate_sql_query`: returns `(is_valid_sql, cleaned_query)`.
Both fields are produced on every path.  `resp` is the completion provider's
verdict; an `Except.error` models the `LLMClientException` branch, which the
source converts into `(False, cleaned)` instead of re-raising. -/
def validate_sql_query (resp : Except LlmErr String) (st : Text2SQLState) :
    Bool × String :=
  let q := st.generated_sql_query.getD ""
  if q = "" then (false, "")
  else
    let cq := clean_sql_query 1000 q
    if cq = "" then (false, cq)
    else if st.metadata.getD "" = "" then (true, cq)
    else
      match resp with
      | .error _ => (false, clean_sql_query 1000 (st.generated_sql_query.getD ""))
      | .ok r =>
          let vr := pyUpper (pyStripS r)
          (containsSub ("VALID".data) vr.data && !containsSub ("INVALID".data) vr.data, cq)

/-- `sql_to_execute = state.get("cleaned_query") or state.get("generated_sql_query")`:
Python `or` falls through on a missing key or an empty string. -/
def effectiveQuery (st : Text2SQLState) : Option String :=
  let a := st.cleaned_query.getD ""
  if a ≠ "" then some a
  else
    let b := st.generated_sql_query.getD ""
    if b ≠ "" then some b else none

/-- `SQLExecutor.execute_sql`: submits the effective query to the database
(`db` is the `DatabaseClient.execute_query` collaborator) and raises
`SQLExecutionException` when no query is available. -/
def execute_sql (db : String → Except DbErr (List Row)) (st : Text2SQLState) :
    Except ExecErr (List Row) :=
  match effectiveQuery st with
  | none => .error .noQueryAvailable
  | some q =>
      match db q with
      | .error e => .error (.db e)
      | .ok rows => .ok rows

/-- The deterministic fallback sentence of `SummaryGenerator.generate_summary`
(`f"Query returned {num_rows} rows with {num_cols} columns: {names}."`). -/
def fallbackSummary (data : List Row) : String :=
  "Query returned " ++ natToStr data.length ++ " rows with " ++
    natToStr (data.headD []).length ++ " columns: " ++
    ⟨joinCharLists (", ".data) ((data.headD []).map String.data)⟩ ++ "."

/-- The 4–5-line post-processing of the generated summary. -/
def adjustSummary (s : String) : String :=
  let lines := ((splitOnChar '\n' s.data).map stripWS).filter (fun l => !l.isEmpty)
  if lines.length < 4 then
    let sentences := ((splitOnChar '.' s.data).map stripWS).filter (fun l => !l.isEmpty)
    if 4 ≤ sentences.length then
      if 5 < sentences.length then ⟨joinCharLists (". ".data) (sentences.take 5) ++ ".".data⟩
      else ⟨joinCharLists (". ".data) sentences ++ ".".data⟩
    else s
  else if 5 < lines.length then ⟨joinCharLists ("\n".data) (lines.take 5)⟩
  else s

/-- `SummaryGenerator.generate_summary`.  `pandasFails` models an unexpected
(non-`LLMClientException`) failure inside the step body, which the source
catches and converts into the deterministic fallback; an `Except.error` from
the completion provider is re-raised.  The DataFrame-emptiness test is modelled
as all rows being keyless. -/
def generate_summary (pandasFails : Bool) (resp : Except LlmErr String)
    (st : Text2SQLState) : Except LlmErr String :=
  let data := st.data.getD []
  if data = [] then .ok "No data available to summarize."
  else if pandasFails then .ok (fallbackSummary data)
  else if data.all (fun r => r.isEmpty) then .ok "The query returned no results."
  else
    match resp with
    | .error e => .error e
    | .ok s => .ok (adjustSummary s)

/-- The per-question cleanup in
`FollowupQuestionGenerator.generate_followup_questions`. -/
def processFollowupText (t : String) : List String :=
  let qs := ((splitOnChar '\n' (pyStripS t).data).map stripWS).filter (fun l => !l.isEmpty)
  let qs := qs.map (fun q => stripWS (q.dropWhile (fun c => ("0123456789.-) ".data).contains c)))
  (qs.take 3).map (fun l => (⟨l⟩ : String))

/-- `FollowupQuestionGenerator.generate_followup_questions` (with the default
`count = 3`): empty metadata yields an empty list without calling the
collaborator; an `LLMClientException` is re-raised. -/
def generate_followup_questions (resp : Except LlmErr String)
    (st : Text2SQLState) : Except LlmErr (List String) :=
  if st.metadata.getD "" = "" then .ok []
  else
    match resp with
    | .error e => .error e
    | .ok t => .ok (processFollowupText t)

/-- The fixed topic-hint suffix of `WorkflowOrchestrator._handle_unanswerable`. -/
def unansSuffix : String :=
  "\n\nThe database contains information about: sales, products, stores, inventory, forecasts, promotions, and pricing. Please try asking about one of these topics."

/-- `WorkflowOrchestrator._handle_unanswerable`: produces `(data, summary)`
without consulting any collaborator. -/
def handle_unanswerable (st : Text2SQLState) : List Row × String :=
  let reason := st.unanswerable_reason.getD "The requested data is not available in the database."
  ([], "I cannot answer this question because: " ++ reason ++ unansSuffix)

/-- The three successors the conditional router can pick. -/
inductive Route where
  | execute_sql
  | generate_sql
  | handle_unanswerable
deriving DecidableEq

/-- `WorkflowOrchestrator._check_condition`. -/
def check_condition (st : Text2SQLState) : Route :=
  if st.is_unanswerable.getD false then .handle_unanswerable
  else
    let is_valid := st.is_valid_sql.getD false
    let retry_count := st.retry_count.getD 0
    let max_retries := st.max_iterations.getD 3
    if is_valid || retry_count ≥ max_retries then .execute_sql
    else .generate_sql

/-! ## Graph nodes and the execution engine

Each node function merges its partial update into the shared state; a raised
step error is a `WfError` tagged with the failing step, per the orchestrator's
`WorkflowException` wrapping. -/

/-- A step failure, tagged with the step that raised it. -/
inductive WfError where
  | metadataStep (e : MetaErr)
  | generateStep (e : LlmErr)
  | executeStep (e : ExecErr)
  | summaryStep (e : LlmErr)
  | followupStep (e : LlmErr)
deriving DecidableEq

/-- `WorkflowOrchestrator._get_metadata`. -/
def getMetadataNode (resp : Except MetaErr String) (st : Text2SQLState) :
    Except WfError Text2SQLState :=
  match resp with
  | .error e => .error (.metadataStep e)
  | .ok md => .ok { st with metadata := some md }

/-- `WorkflowOrchestrator._generate_sql`: merge the generator's partial update
(absent keys leave the state untouched). -/
def generateSqlNode (resp : Except LlmErr String) (st : Text2SQLState) :
    Except WfError Text2SQLState :=
  match generate_sql resp st with
  | .error e => .error (.generateStep e)
  | .ok g =>
      .ok { st with
            generated_sql_query := some g.generated_sql_query,
            is_unanswerable :=
              match g.is_unanswerable with
              | some b => some b
              | none => st.is_unanswerable,
            unanswerable_reason :=
              match g.unanswerable_reason with
              | some r => some r
              | none => st.unanswerable_reason }

/-- `WorkflowOrchestrator._validate_sql_query`: the validator's result plus the
`retry_count` increment.  This node never raises in the model (the validator
converts collaborator failures into a result). -/
def validateSqlNode (resp : Except LlmErr String) (st : Text2SQLState) :
    Text2SQLState :=
  let r := validate_sql_query resp st
  { st with
    is_valid_sql := some r.1,
    cleaned_query := some r.2,
    retry_count := some (st.retry_count.getD 0 + 1) }

/-- `WorkflowOrchestrator._execute_sql`. -/
def executeSqlNode (db : String → Except DbErr (List Row)) (st : Text2SQLState) :
    Except WfError Text2SQLState :=
  match execute_sql db st with
  | .error e => .error (.executeStep e)
  | .ok rows => .ok { st with data := some rows }

/-- `WorkflowOrchestrator._generate_summary`. -/
def summaryNode (pandasFails : Bool) (resp : Except LlmErr String)
    (st : Text2SQLState) : Except WfError Text2SQLState :=
  match generate_summary pandasFails resp st with
  | .error e => .error (.summaryStep e)
  | .ok s => .ok { st with summary := some s }

/-- `WorkflowOrchestrator._generate_chart` (placeholder: always `chart=""`). -/
def chartNode (st : Text2SQLState) : Text2SQLState :=
  { st with chart := some "" }

/-- `WorkflowOrchestrator._get_followup_que`. -/
def followupNode (resp : Except LlmErr String) (st : Text2SQLState) :
    Except WfError Text2SQLState :=
  match generate_followup_questions resp st with
  | .error e => .error (.followupStep e)
  | .ok qs => .ok { st with followup_que := some qs }

/-- `WorkflowOrchestrator._handle_unanswerable` as a node. -/
def handleUnanswerableNode (st : Text2SQLState) : Text2SQLState :=
  let r := handle_unanswerable st
  { st with data := some r.1, summary := some r.2 }

/-- The collaborator responses for one run: metadata text, follow-up
completion, per-attempt generation and validation completions, database
execution, and the summary completion (with `pandasFails` for a non-LLM
failure inside the summary body). -/
structure Oracles where
  metaResp : Except MetaErr String
  folResp : Except LlmErr String
  genResp : Nat → Except LlmErr String
  valResp : Nat → Except LlmErr String
  dbResp : String → Except DbErr (List Row)
  pandasFails : Bool
  sumResp : Except LlmErr String

/-- Outcome of the generate→validate cycle: the state after the last
validation, the number of completed generation and validation executions, and
the router's exit choice; or the first node failure (with the counts). -/
inductive LoopRes where
  | failed (e : WfError) (gens vals : Nat)
  | finished (st : Text2SQLState) (gens vals : Nat) (r : Route)
deriving DecidableEq

theorem generateSqlNode_preserves (resp : Except LlmErr String)
    (st st' : Text2SQLState) (h : generateSqlNode resp st = .ok st') :
    st'.retry_count = st.retry_count ∧ st'.max_iterations = st.max_iterations ∧
      st'.metadata = st.metadata ∧ st'.input_text = st.input_text := by
  unfold generateSqlNode at h
  cases hg : generate_sql resp st with
  | error e => rw [hg] at h; cases h
  | ok g => rw [hg] at h; cases h; exact ⟨rfl, rfl, rfl, rfl⟩

theorem validateSqlNode_retry (resp : Except LlmErr String) (st : Text2SQLState) :
    (validateSqlNode resp st).retry_count = some (st.retry_count.getD 0 + 1) := rfl

theorem validateSqlNode_max (resp : Except LlmErr String) (st : Text2SQLState) :
    (validateSqlNode resp st).max_iterations = st.max_iterations := rfl

theorem check_condition_loop (st : Text2SQLState)
    (h : check_condition st = .generate_sql) :
    st.retry_count.getD 0 < st.max_iterations.getD 3 := by
  unfold check_condition at h
  split at h
  · cases h
  · simp only at h
    split at h
    · cases h
    · rename_i hcond
      simp only [Bool.or_eq_true, decide_eq_true_eq, not_or] at hcond
      omega

/-- The generate→validate→router cycle of the compiled graph
(`generate_sql → validate_sql_query → _check_condition`), entered from the
`get_metadata → generate_sql` edge.  Terminates because `validate_sql_query`
strictly increments `retry_count` and the router loops back only while
`retry_count < max_iterations`. -/
def runLoop (o : Oracles) (st : Text2SQLState) (gens vals : Nat) : LoopRes :=
  match hg : generateSqlNode (o.genResp gens) st with
  | .error e => .failed e gens vals
  | .ok st1 =>
      let st2 := validateSqlNode (o.valResp gens) st1
      match hc : check_condition st2 with
      | .generate_sql => runLoop o st2 (gens + 1) (vals + 1)
      | .execute_sql => .finished st2 (gens + 1) (vals + 1) .execute_sql
      | .handle_unanswerable => .finished st2 (gens + 1) (vals + 1) .handle_unanswerable
termination_by st.max_iterations.getD 3 - st.retry_count.getD 0
decreasing_by
  have hpres := generateSqlNode_preserves (o.genResp gens) st st1 hg
  have hlt := check_condition_loop _ hc
  rw [validateSqlNode_retry, validateSqlNode_max] at hlt
  rw [validateSqlNode_max, validateSqlNode_retry, hpres.1, hpres.2.1]
  rw [hpres.1, hpres.2.1] at hlt
  simp only [Option.getD_some] at hlt ⊢
  omega

/-- Trace of one run: the final result, how often generation and validation
executed, which of the downstream steps were invoked, and the state at the
loop's exit (when the loop completed). -/
structure RunOutcome where
  result : Except WfError Text2SQLState
  gens : Nat
  vals : Nat
  followRan : Bool
  execRan : Bool
  chartRan : Bool
  summaryRan : Bool
  unansRan : Bool
  loopExit : Option Text2SQLState

/-- The execution engine interpreting the compiled graph of
`WorkflowOrchestrator._build_workflow`:
`START → get_metadata → {get_followup_que, generate_sql}`,
`generate_sql → validate_sql_query` (the cycle above),
`execute_sql → {generate_chart, generate_summary}`, terminals end the run, and
the first node failure aborts it (fail-fast).  The two fan-outs write disjoint
fields and are sequentialized (follow-up before the generation branch, chart
before summary). -/
def runWorkflow (o : Oracles) (st0 : Text2SQLState) : RunOutcome :=
  match getMetadataNode o.metaResp st0 with
  | .error e => ⟨.error e, 0, 0, false, false, false, false, false, none⟩
  | .ok st1 =>
      match followupNode o.folResp st1 with
      | .error e => ⟨.error e, 0, 0, true, false, false, false, false, none⟩
      | .ok st2 =>
          match runLoop o st2 0 0 with
          | .failed e g v => ⟨.error e, g, v, true, false, false, false, false, none⟩
          | .finished st3 g v r =>
              match r with
              | .handle_unanswerable =>
                  ⟨.ok (handleUnanswerableNode st3), g, v, true, false, false, false, true, some st3⟩
              | _ =>
                  match executeSqlNode o.dbResp st3 with
                  | .error e => ⟨.error e, g, v, true, true, false, false, false, some st3⟩
                  | .ok st4 =>
                      let st5 := chartNode st4
                      match summaryNode o.pandasFails o.sumResp st5 with
                      | .error e => ⟨.error e, g, v, true, true, true, false, false, some st3⟩
                      | .ok st6 => ⟨.ok st6, g, v, true, true, true, true, false, some st3⟩

/-! ## Router evaluation helpers -/

theorem check_condition_unans_eq (st : Text2SQLState)
    (hu : st.is_unanswerable.getD false = true) :
    check_condition st = .handle_unanswerable := by
  unfold check_condition
  rw [hu]
  rfl

theorem check_condition_exec_eq (st : Text2SQLState)
    (hu : st.is_unanswerable.getD false = false)
    (hv : st.is_valid_sql.getD false = false)
    (hr : st.retry_count.getD 0 ≥ st.max_iterations.getD 3) :
    check_condition st = .execute_sql := by
  unfold check_condition
  rw [hu, hv]
  simp only [Bool.false_eq_true, if_false, Bool.false_or]
  rw [decide_eq_true hr]
  rfl

theorem check_condition_gen_eq (st : Text2SQLState)
    (hu : st.is_unanswerable.getD false = false)
    (hv : st.is_valid_sql.getD false = false)
    (hr : st.retry_count.getD 0 < st.max_iterations.getD 3) :
    check_condition st = .generate_sql := by
  unfold check_condition
  rw [hu, hv]
  simp only [Bool.false_eq_true, if_false, Bool.false_or]
  rw [decide_eq_false (Nat.not_le.mpr hr)]
  rfl

/-! ## Loop execution counts -/

/-- Completed generation executions recorded by a loop outcome. -/
def loopGens : LoopRes → Nat
  | .failed _ g _ => g
  | .finished _ g _ _ => g

/-- Completed validation executions recorded by a loop outcome. -/
def loopVals : LoopRes → Nat
  | .failed _ _ v => v
  | .finished _ _ v _ => v

/-- Counting invariant of the cycle: generation and validation advance in
lock-step and the number of extra iterations is bounded by the remaining
retry budget (one iteration always runs because the router is evaluated only
after validation). -/
theorem runLoop_counts (o : Oracles) (st : Text2SQLState) (g v : Nat) :
    ∃ d, loopGens (runLoop o st g v) = g + d ∧ loopVals (runLoop o st g v) = v + d ∧
      d ≤ max 1 (st.max_iterations.getD 3 - st.retry_count.getD 0) := by
  induction st, g, v using runLoop.induct o with
  | case1 st g v e hg =>
      refine ⟨0, ?_, ?_, ?_⟩
      · rw [runLoop, hg]
        rfl
      · rw [runLoop, hg]
        rfl
      · exact Nat.zero_le _
  | case2 st g v st1 hg st2 hc ih =>
      obtain ⟨d, hd1, hd2, hd3⟩ := ih
      have hpres := generateSqlNode_preserves (o.genResp g) st st1 hg
      have hlt := check_condition_loop _ hc
      rw [validateSqlNode_retry, validateSqlNode_max, hpres.1, hpres.2.1] at hlt
      have hrw : runLoop o st g v = runLoop o st2 (g + 1) (v + 1) := by
        rw [runLoop]
        rw [hg]
        simp only []
        rw [hc]
      refine ⟨d + 1, ?_, ?_, ?_⟩
      · rw [hrw, hd1]; omega
      · rw [hrw, hd2]; omega
      · have hmax : st2.max_iterations = st.max_iterations := by
          show (validateSqlNode (o.valResp g) st1).max_iterations = _
          rw [validateSqlNode_max, hpres.2.1]
        have hretry : st2.retry_count = some (st.retry_count.getD 0 + 1) := by
          show (validateSqlNode (o.valResp g) st1).retry_count = _
          rw [validateSqlNode_retry, hpres.1]
        rw [hmax, hretry] at hd3
        simp only [Option.getD_some] at hd3
        simp only [Option.getD_some] at hlt
        omega
  | case3 st g v st1 hg st2 hc =>
      refine ⟨1, ?_, ?_, ?_⟩
      · rw [runLoop]; rw [hg]; simp only []; rw [hc]; rfl
      · rw [runLoop]; rw [hg]; simp only []; rw [hc]; rfl
      · omega
  | case4 st g v st1 hg st2 hc =>
      refine ⟨1, ?_, ?_, ?_⟩
      · rw [runLoop]; rw [hg]; simp only []; rw [hc]; rfl
      · rw [runLoop]; rw [hg]; simp only []; rw [hc]; rfl
      · omega

/-! ## Node evaluation helpers -/

theorem generate_sql_ok_plain (resp : Except LlmErr String) (q : String)
    (st : Text2SQLState) (hit : st.input_text.getD "" ≠ "")
    (hmd : st.metadata.getD "" ≠ "") (hresp : resp = .ok q)
    (hnr : isRefusal q = false) :
    generate_sql resp st = .ok ⟨q, none, none⟩ := by
  simp [generate_sql, hit, hmd, hresp, hnr]

theorem generateSqlNode_ok_plain (resp : Except LlmErr String) (q : String)
    (st : Text2SQLState) (hit : st.input_text.getD "" ≠ "")
    (hmd : st.metadata.getD "" ≠ "") (hresp : resp = .ok q)
    (hnr : isRefusal q = false) :
    generateSqlNode resp st = .ok { st with generated_sql_query := some q } := by
  unfold generateSqlNode
  rw [generate_sql_ok_plain resp q st hit hmd hresp hnr]

theorem generate_sql_refusal (resp : Except LlmErr String) (q : String)
    (st : Text2SQLState) (hit : st.input_text.getD "" ≠ "")
    (hmd : st.metadata.getD "" ≠ "") (hresp : resp = .ok q)
    (hnr : isRefusal q = true) :
    generate_sql resp st =
      .ok ⟨"", some true, some (pyStripS (replaceAllS q "UNANSWERABLE:" ""))⟩ := by
  simp [generate_sql, hit, hmd, hresp, hnr]

theorem generateSqlNode_refusal (resp : Except LlmErr String) (q : String)
    (st : Text2SQLState) (hit : st.input_text.getD "" ≠ "")
    (hmd : st.metadata.getD "" ≠ "") (hresp : resp = .ok q)
    (hnr : isRefusal q = true) :
    generateSqlNode resp st =
      .ok { st with generated_sql_query := some "", is_unanswerable := some true, unanswerable_reason := some (pyStripS (replaceAllS q "UNANSWERABLE:" "")) } := by
  unfold generateSqlNode
  rw [generate_sql_refusal resp q st hit hmd hresp hnr]

theorem validate_sql_query_invalid (st : Text2SQLState)
    (hq : st.generated_sql_query.getD "" ≠ "") (hmd : st.metadata.getD "" ≠ "") :
    (validate_sql_query (.ok "INVALID") st).1 = false := by
  by_cases hcq : clean_sql_query 1000 (st.generated_sql_query.getD "") = ""
  · simp [validate_sql_query, hq, hcq]
  · simp [validate_sql_query, hq, hcq, hmd]
    decide

/-! ## The all-invalid scenario: the loop is forced forward -/

/-- When every generation attempt yields the same non-refusal query and every
validation verdict is `INVALID`, the cycle runs down the whole retry budget
and exits towards `execute_sql` with `retry_count = max_iterations`. -/
theorem runLoop_all_invalid (o : Oracles) (q : String) (m : Nat)
    (hg : ∀ k, o.genResp k = .ok q) (hq : q ≠ "") (hnr : isRefusal q = false)
    (hv : ∀ k, o.valResp k = .ok "INVALID") :
    ∀ n st g v r, st.metadata.getD "" ≠ "" → st.input_text.getD "" ≠ "" →
      st.is_unanswerable.getD false = false →
      st.max_iterations = some m → st.retry_count = some r → r < m → n = m - r →
      ∃ stf, runLoop o st g v = .finished stf (g + (m - r)) (v + (m - r)) .execute_sql ∧
        stf.retry_count = some m := by
  intro n
  induction n with
  | zero =>
      intro st g v r hmd hit hun hmax hretry hrm hn
      omega
  | succ n ih =>
      intro st g v r hmd hit hun hmax hretry hrm hn
      have hq1 : ({ st with generated_sql_query := some q } :
          Text2SQLState).generated_sql_query.getD "" ≠ "" := hq
      have hgnode : generateSqlNode (o.genResp g) st =
          .ok { st with generated_sql_query := some q } :=
        generateSqlNode_ok_plain _ _ _ hit hmd (hg g) hnr
      have hvalfst :
          (validate_sql_query (o.valResp g) { st with generated_sql_query := some q }).1 =
            false := by
        rw [hv g]
        exact validate_sql_query_invalid _ hq1 hmd
      have h2un : (validateSqlNode (o.valResp g)
          { st with generated_sql_query := some q }).is_unanswerable.getD false = false := hun
      have h2valid : (validateSqlNode (o.valResp g)
          { st with generated_sql_query := some q }).is_valid_sql.getD false = false := by
        show (some (validate_sql_query (o.valResp g)
          { st with generated_sql_query := some q }).1).getD false = false
        rw [hvalfst]
        rfl
      have h2retry : (validateSqlNode (o.valResp g)
          { st with generated_sql_query := some q }).retry_count = some (r + 1) := by
        rw [validateSqlNode_retry]
        show some (st.retry_count.getD 0 + 1) = _
        rw [hretry]
        rfl
      have h2max : (validateSqlNode (o.valResp g)
          { st with generated_sql_query := some q }).max_iterations = some m := hmax
      by_cases hend : m ≤ r + 1
      · have hroute : check_condition (validateSqlNode (o.valResp g)
            { st with generated_sql_query := some q }) = .execute_sql := by
          apply check_condition_exec_eq _ h2un h2valid
          rw [h2retry, h2max]
          simp only [Option.getD_some]
          omega
        have hmr : m - r = 1 := by omega
        refine ⟨validateSqlNode (o.valResp g) { st with generated_sql_query := some q }, ?_, ?_⟩
        · rw [runLoop, hgnode]
          simp only []
          rw [hroute, hmr]
        · rw [h2retry]
          congr 1
          omega
      · have hroute : check_condition (validateSqlNode (o.valResp g)
            { st with generated_sql_query := some q }) = .generate_sql := by
          apply check_condition_gen_eq _ h2un h2valid
          rw [h2retry, h2max]
          simp only [Option.getD_some]
          omega
        obtain ⟨stf, heq, hret⟩ := ih (validateSqlNode (o.valResp g)
            { st with generated_sql_query := some q }) (g + 1) (v + 1) (r + 1)
          hmd hit h2un h2max h2retry (by omega) (by omega)
        have hcount1 : (g + 1) + (m - (r + 1)) = g + (m - r) := by omega
        have hcount2 : (v + 1) + (m - (r + 1)) = v + (m - r) := by omega
        rw [hcount1, hcount2] at heq
        refine ⟨stf, ?_, hret⟩
        rw [runLoop, hgnode]
        simp only []
        rw [hroute]
        exact heq

/-! ## Run-level evaluation helpers -/

theorem getMetadataNode_ok_eq (md : String) (st : Text2SQLState) :
    getMetadataNode (.ok md) st = .ok { st with metadata := some md } := rfl

theorem followupNode_ok_eq (ft : String) (st : Text2SQLState)
    (hmd : st.metadata.getD "" ≠ "") :
    followupNode (.ok ft) st =
      .ok { st with followup_que := some (processFollowupText ft) } := by
  simp [followupNode, generate_followup_questions, hmd]

/-- The run's generation/validation counters are exactly the loop's counters
once the two pre-loop nodes succeed. -/
theorem runWorkflow_counts_eq (o : Oracles) (st0 st1 st2 : Text2SQLState)
    (h1 : getMetadataNode o.metaResp st0 = .ok st1)
    (h2 : followupNode o.folResp st1 = .ok st2) :
    (runWorkflow o st0).gens = loopGens (runLoop o st2 0 0) ∧
      (runWorkflow o st0).vals = loopVals (runLoop o st2 0 0) := by
  unfold runWorkflow
  rw [h1]
  simp only []
  rw [h2]
  simp only []
  cases hL : runLoop o st2 0 0 with
  | failed e g v => exact ⟨rfl, rfl⟩
  | finished st3 g v r =>
      cases r with
      | handle_unanswerable => exact ⟨rfl, rfl⟩
      | execute_sql =>
          simp only []
          cases hE : executeSqlNode o.dbResp st3 with
          | error e => exact ⟨rfl, rfl⟩
          | ok st4 =>
              simp only []
              cases hS : summaryNode o.pandasFails o.sumResp (chartNode st4) with
              | error e => exact ⟨rfl, rfl⟩
              | ok st6 => exact ⟨rfl, rfl⟩
      | generate_sql =>
          simp only []
          cases hE : executeSqlNode o.dbResp st3 with
          | error e => exact ⟨rfl, rfl⟩
          | ok st4 =>
              simp only []
              cases hS : summaryNode o.pandasFails o.sumResp (chartNode st4) with
              | error e => exact ⟨rfl, rfl⟩
              | ok st6 => exact ⟨rfl, rfl⟩

/-- After a loop exit routed to `execute_sql`, the run's trace marks the
execution step as invoked and records the loop-exit state, whatever the
downstream collaborators do. -/
theorem runWorkflow_exec_trace (o : Oracles) (st0 st1 st2 stf : Text2SQLState)
    (g v : Nat) (h1 : getMetadataNode o.metaResp st0 = .ok st1)
    (h2 : followupNode o.folResp st1 = .ok st2)
    (hL : runLoop o st2 0 0 = .finished stf g v .execute_sql) :
    (runWorkflow o st0).execRan = true ∧ (runWorkflow o st0).gens = g ∧
      (runWorkflow o st0).vals = v ∧ (runWorkflow o st0).loopExit = some stf := by
  unfold runWorkflow
  rw [h1]
  simp only []
  rw [h2]
  simp only []
  rw [hL]
  simp only []
  cases hE : executeSqlNode o.dbResp stf with
  | error e => exact ⟨rfl, rfl, rfl, rfl⟩
  | ok st4 =>
      simp only []
      cases hS : summaryNode o.pandasFails o.sumResp (chartNode st4) with
      | error e => exact ⟨rfl, rfl, rfl, rfl⟩
      | ok st6 => exact ⟨rfl, rfl, rfl, rfl⟩

theorem getMetadataNode_preserves (resp : Except MetaErr String)
    (st st' : Text2SQLState) (h : getMetadataNode resp st = .ok st') :
    st'.retry_count = st.retry_count ∧ st'.max_iterations = st.max_iterations ∧
      st'.input_text = st.input_text ∧ st'.is_unanswerable = st.is_unanswerable := by
  unfold getMetadataNode at h
  cases resp with
  | error e => cases h
  | ok md => cases h; exact ⟨rfl, rfl, rfl, rfl⟩

theorem followupNode_preserves (resp : Except LlmErr String)
    (st st' : Text2SQLState) (h : followupNode resp st = .ok st') :
    st'.retry_count = st.retry_count ∧ st'.max_iterations = st.max_iterations ∧
      st'.input_text = st.input_text ∧ st'.is_unanswerable = st.is_unanswerable ∧
      st'.metadata = st.metadata := by
  unfold followupNode at h
  cases hq : generate_followup_questions resp st with
  | error e => rw [hq] at h; cases h
  | ok qs => rw [hq] at h; cases h; exact ⟨rfl, rfl, rfl, rfl, rfl⟩

/-! ## C5: the validate→generate cycle terminates and is forced forward -/

/-- C5: for every initial state with `retry_count = 0` and
`max_iterations = m ≥ 1`: the validation node increments `retry_count` by
exactly 1 on every visit (first conjunct, for every visited state); the
generation step completes at most `m` times and validation completes exactly
as often as generation (second conjunct, for arbitrary collaborator
behaviour); and when every validation verdict is `INVALID` the router still
exits to `execute_sql` with `retry_count = m` after exactly `m`
generation/validation rounds (third conjunct, forced-forward). -/
theorem loop_bounded_forced_forward (o : Oracles) (st0 : Text2SQLState) (m : Nat)
    (hr0 : st0.retry_count = some 0) (hm0 : st0.max_iterations = some m)
    (hm1 : 1 ≤ m) :
    (∀ (st : Text2SQLState) (resp : Except LlmErr String),
        (validateSqlNode resp st).retry_count = some (st.retry_count.getD 0 + 1)) ∧
    ((runWorkflow o st0).vals = (runWorkflow o st0).gens ∧
      (runWorkflow o st0).gens ≤ m) ∧
    (∀ q md ft, o.metaResp = .ok md → md ≠ "" → o.folResp = .ok ft →
      st0.input_text.getD "" ≠ "" → st0.is_unanswerable.getD false = false →
      (∀ k, o.genResp k = .ok q) → q ≠ "" → isRefusal q = false →
      (∀ k, o.valResp k = .ok "INVALID") →
      (runWorkflow o st0).execRan = true ∧ (runWorkflow o st0).gens = m ∧
        (runWorkflow o st0).vals = m ∧
        ∃ stf, (runWorkflow o st0).loopExit = some stf ∧
          stf.retry_count = some m) := by
  refine ⟨fun st resp => validateSqlNode_retry resp st, ?_, ?_⟩
  · cases hM : getMetadataNode o.metaResp st0 with
    | error e =>
        unfold runWorkflow
        rw [hM]
        exact ⟨rfl, Nat.zero_le _⟩
    | ok st1 =>
        cases hF : followupNode o.folResp st1 with
        | error e =>
            unfold runWorkflow
            rw [hM]
            simp only []
            rw [hF]
            exact ⟨rfl, Nat.zero_le _⟩
        | ok st2 =>
            obtain ⟨hG, hV⟩ := runWorkflow_counts_eq o st0 st1 st2 hM hF
            obtain ⟨d, hd1, hd2, hd3⟩ := runLoop_counts o st2 0 0
            have hp1 := getMetadataNode_preserves o.metaResp st0 st1 hM
            have hp2 := followupNode_preserves o.folResp st1 st2 hF
            have hmax2 : st2.max_iterations = some m := by
              rw [hp2.2.1, hp1.2.1, hm0]
            have hret2 : st2.retry_count = some 0 := by
              rw [hp2.1, hp1.1, hr0]
            rw [hmax2, hret2] at hd3
            simp only [Option.getD_some, Nat.sub_zero] at hd3
            have hmaxm : max 1 m = m := Nat.max_eq_right hm1
            rw [hmaxm] at hd3
            constructor
            · rw [hG, hV, hd1, hd2]
            · rw [hG, hd1]
              omega
  · intro q md ft hmeta hmd hfol hit hun hgen hq hnr hval
    have hM : getMetadataNode o.metaResp st0 = .ok { st0 with metadata := some md } := by
      rw [hmeta]
      rfl
    have hmd1 : ({ st0 with metadata := some md } : Text2SQLState).metadata.getD "" ≠ "" := by
      simpa using hmd
    have hF : followupNode o.folResp { st0 with metadata := some md } =
        .ok { st0 with metadata := some md, followup_que := some (processFollowupText ft) } := by
      rw [hfol]
      exact followupNode_ok_eq ft _ hmd1
    obtain ⟨stf, hL, hret⟩ := runLoop_all_invalid o q m hgen hq hnr hval m
      { st0 with metadata := some md, followup_que := some (processFollowupText ft) }
      0 0 0 hmd1 hit hun hm0 hr0 (by omega) (by omega)
    have hcount : 0 + (m - 0) = m := by omega
    rw [hcount] at hL
    obtain ⟨hexec, hg, hv, hle⟩ := runWorkflow_exec_trace o st0 _ _ stf m m hM hF hL
    exact ⟨hexec, hg, hv, stf, hle, hret⟩

/-- Witness for C5: `max_iterations = 2` with an always-`INVALID` validator
still reaches `execute_sql` with `retry_count = 2` after exactly two
generation and two validation executions. -/
theorem loop_bounded_forced_forward_witness :
    ∃ stf,
      (runWorkflow ⟨.ok "schema", .ok "fq", fun _ => .ok "SELECT 1", fun _ => .ok "INVALID", fun _ => .ok [], false, .ok "sum"⟩ { input_text := some "total sales", max_iterations := some 2, retry_count := some 0 }).execRan = true ∧
      (runWorkflow ⟨.ok "schema", .ok "fq", fun _ => .ok "SELECT 1", fun _ => .ok "INVALID", fun _ => .ok [], false, .ok "sum"⟩ { input_text := some "total sales", max_iterations := some 2, retry_count := some 0 }).gens = 2 ∧
      (runWorkflow ⟨.ok "schema", .ok "fq", fun _ => .ok "SELECT 1", fun _ => .ok "INVALID", fun _ => .ok [], false, .ok "sum"⟩ { input_text := some "total sales", max_iterations := some 2, retry_count := some 0 }).vals = 2 ∧
      (runWorkflow ⟨.ok "schema", .ok "fq", fun _ => .ok "SELECT 1", fun _ => .ok "INVALID", fun _ => .ok [], false, .ok "sum"⟩ { input_text := some "total sales", max_iterations := some 2, retry_count := some 0 }).loopExit = some stf ∧
      stf.retry_count = some 2 := by
  have h := loop_bounded_forced_forward
    ⟨.ok "schema", .ok "fq", fun _ => .ok "SELECT 1", fun _ => .ok "INVALID", fun _ => .ok [], false, .ok "sum"⟩
    { input_text := some "total sales", max_iterations := some 2, retry_count := some 0 }
    2 rfl rfl (by omega)
  obtain ⟨hexec, hg, hv, stf, hle, hret⟩ := h.2.2 "SELECT 1" "schema" "fq" rfl
    (by decide) rfl (by decide) rfl (fun k => rfl) (by decide) (by decide) (fun k => rfl)
  exact ⟨stf, hexec, hg, hv, hle, hret⟩

/-! ## C8: the unanswerable path -/

/-- C8: when the generation completion is a refusal marker, the generation
step records `is_unanswerable = true`, the refusal explanation (the completion
with the `UNANSWERABLE:` marker removed, trimmed) and an empty
`generated_sql_query`; the run then reaches the unanswerable handler, which
produces `data = []` and a summary consisting of the reason followed by the
fixed topic-hint suffix without calling any collaborator (the handler node
takes no oracle), and the execute/summary/chart steps are never invoked. -/
theorem unanswerable_flow (o : Oracles) (st0 : Text2SQLState) (md ft resp : String)
    (hmeta : o.metaResp = .ok md) (hmd : md ≠ "") (hfol : o.folResp = .ok ft)
    (hit : st0.input_text.getD "" ≠ "") (hgen : o.genResp 0 = .ok resp)
    (href : isRefusal resp = true) :
    ∃ stf, (runWorkflow o st0).result = .ok stf ∧
      stf.is_unanswerable = some true ∧
      stf.generated_sql_query = some "" ∧
      stf.unanswerable_reason = some (pyStripS (replaceAllS resp "UNANSWERABLE:" "")) ∧
      stf.data = some [] ∧
      stf.summary = some ("I cannot answer this question because: " ++
        pyStripS (replaceAllS resp "UNANSWERABLE:" "") ++ unansSuffix) ∧
      (runWorkflow o st0).execRan = false ∧ (runWorkflow o st0).summaryRan = false ∧
      (runWorkflow o st0).chartRan = false ∧ (runWorkflow o st0).unansRan = true ∧
      (runWorkflow o st0).gens = 1 ∧ (runWorkflow o st0).vals = 1 := by
  have hM : getMetadataNode o.metaResp st0 = .ok { st0 with metadata := some md } := by
    rw [hmeta]
    rfl
  have hmd1 : ({ st0 with metadata := some md } : Text2SQLState).metadata.getD "" ≠ "" := by
    simpa using hmd
  have hF : followupNode o.folResp { st0 with metadata := some md } =
      .ok { st0 with metadata := some md, followup_que := some (processFollowupText ft) } := by
    rw [hfol]
    exact followupNode_ok_eq ft _ hmd1
  have hGnode : generateSqlNode (o.genResp 0)
      { st0 with metadata := some md, followup_que := some (processFollowupText ft) } =
      .ok { st0 with metadata := some md, followup_que := some (processFollowupText ft), generated_sql_query := some "", is_unanswerable := some true, unanswerable_reason := some (pyStripS (replaceAllS resp "UNANSWERABLE:" "")) } :=
    generateSqlNode_refusal _ resp _ hit hmd1 hgen href
  have hroute : check_condition (validateSqlNode (o.valResp 0)
      { st0 with metadata := some md, followup_que := some (processFollowupText ft), generated_sql_query := some "", is_unanswerable := some true, unanswerable_reason := some (pyStripS (replaceAllS resp "UNANSWERABLE:" "")) }) = .handle_unanswerable :=
    check_condition_unans_eq _ rfl
  have hL : runLoop o
      { st0 with metadata := some md, followup_que := some (processFollowupText ft) } 0 0 =
      .finished (validateSqlNode (o.valResp 0)
        { st0 with metadata := some md, followup_que := some (processFollowupText ft), generated_sql_query := some "", is_unanswerable := some true, unanswerable_reason := some (pyStripS (replaceAllS resp "UNANSWERABLE:" "")) }) 1 1 .handle_unanswerable := by
    rw [runLoop, hGnode]
    simp only []
    rw [hroute]
  unfold runWorkflow
  rw [hM]
  simp only []
  rw [hF]
  simp only []
  rw [hL]
  refine ⟨handleUnanswerableNode (validateSqlNode (o.valResp 0) { st0 with metadata := some md, followup_que := some (processFollowupText ft), generated_sql_query := some "", is_unanswerable := some true, unanswerable_reason := some (pyStripS (replaceAllS resp "UNANSWERABLE:" "")) }), ?_, ?_, ?_, ?_, ?_, ?_, ?_, ?_, ?_, ?_, ?_, ?_⟩ <;> rfl

/-- Witness for C8: the spec's own scenario — the completion
`"UNANSWERABLE: missing customers table"` yields an unanswerable final state
whose summary carries the reason and the topic-hint suffix, with the
execute/summary/chart steps never invoked. -/
theorem unanswerable_flow_witness :
    ∃ stf,
      (runWorkflow ⟨.ok "schema", .ok "fq", fun _ => .ok "UNANSWERABLE: missing customers table", fun _ => .ok "VALID", fun _ => .ok [], false, .ok "sum"⟩ { input_text := some "list customers", max_iterations := some 3, retry_count := some 0 }).result = .ok stf ∧
      stf.is_unanswerable = some true ∧
      stf.generated_sql_query = some "" ∧
      stf.unanswerable_reason = some "missing customers table" ∧
      stf.data = some [] ∧
      stf.summary = some ("I cannot answer this question because: " ++ "missing customers table" ++ unansSuffix) ∧
      (runWorkflow ⟨.ok "schema", .ok "fq", fun _ => .ok "UNANSWERABLE: missing customers table", fun _ => .ok "VALID", fun _ => .ok [], false, .ok "sum"⟩ { input_text := some "list customers", max_iterations := some 3, retry_count := some 0 }).execRan = false ∧
      (runWorkflow ⟨.ok "schema", .ok "fq", fun _ => .ok "UNANSWERABLE: missing customers table", fun _ => .ok "VALID", fun _ => .ok [], false, .ok "sum"⟩ { input_text := some "list customers", max_iterations := some 3, retry_count := some 0 }).summaryRan = false ∧
      (runWorkflow ⟨.ok "schema", .ok "fq", fun _ => .ok "UNANSWERABLE: missing customers table", fun _ => .ok "VALID", fun _ => .ok [], false, .ok "sum"⟩ { input_text := some "list customers", max_iterations := some 3, retry_count := some 0 }).chartRan = false ∧
      (runWorkflow ⟨.ok "schema", .ok "fq", fun _ => .ok "UNANSWERABLE: missing customers table", fun _ => .ok "VALID", fun _ => .ok [], false, .ok "sum"⟩ { input_text := some "list customers", max_iterations := some 3, retry_count := some 0 }).unansRan = true := by
  obtain ⟨stf, h1, h2, h3, h4, h5, h6, h7, h8, h9, h10, h11, h12⟩ :=
    unanswerable_flow
      ⟨.ok "schema", .ok "fq", fun _ => .ok "UNANSWERABLE: missing customers table", fun _ => .ok "VALID", fun _ => .ok [], false, .ok "sum"⟩
      { input_text := some "list customers", max_iterations := some 3, retry_count := some 0 }
      "schema" "fq" "UNANSWERABLE: missing customers table" rfl (by decide) rfl
      (by decide) rfl (by decide)
  have hr : pyStripS (replaceAllS "UNANSWERABLE: missing customers table" "UNANSWERABLE:" "") =
      "missing customers table" := by decide
  rw [hr] at h4 h6
  exact ⟨stf, h1, h2, h3, h4, h5, h6, h7, h8, h9, h10⟩

/-! ## C4: the post-validation router -/

/-- C4: for every post-validation state the router picks exactly one
successor: `handle_unanswerable` when `is_unanswerable` is set; otherwise
`execute_sql` when `is_valid_sql` holds or the retry budget is exhausted
(`retry_count ≥ max_iterations`); otherwise `generate_sql`.  (`check_condition`
is a total function into the three-valued `Route`, so exactly one successor is
selected.) -/
theorem router_selects_successor (st : Text2SQLState) :
    (st.is_unanswerable.getD false = true →
      check_condition st = .handle_unanswerable) ∧
    (st.is_unanswerable.getD false = false →
      (st.is_valid_sql.getD false = true ∨
        st.retry_count.getD 0 ≥ st.max_iterations.getD 3) →
      check_condition st = .execute_sql) ∧
    (st.is_unanswerable.getD false = false →
      st.is_valid_sql.getD false = false →
      st.retry_count.getD 0 < st.max_iterations.getD 3 →
      check_condition st = .generate_sql) := by
  refine ⟨fun h1 => ?_, fun h1 h2 => ?_, fun h1 h2 h3 => ?_⟩
  · unfold check_condition
    rw [h1]
    rfl
  · unfold check_condition
    rw [h1]
    simp only [Bool.false_eq_true, if_false]
    rcases h2 with h2 | h2
    · rw [h2]
      rfl
    · have : decide (st.retry_count.getD 0 ≥ st.max_iterations.getD 3) = true :=
        decide_eq_true h2
      rw [this, Bool.or_true]
      rfl
  · unfold check_condition
    rw [h1, h2]
    simp only [Bool.false_eq_true, if_false, Bool.false_or]
    have : decide (st.retry_count.getD 0 ≥ st.max_iterations.getD 3) = false :=
      decide_eq_false (Nat.not_le.mpr h3)
    rw [this]
    rfl

/-- Witness for C4: each router branch exercised on a concrete state. -/
theorem router_selects_successor_witness :
    check_condition ({ is_unanswerable := some true, is_valid_sql := some true } : Text2SQLState) = .handle_unanswerable ∧
    check_condition ({ is_valid_sql := some true, retry_count := some 1, max_iterations := some 3 } : Text2SQLState) = .execute_sql ∧
    check_condition ({ is_valid_sql := some false, retry_count := some 3, max_iterations := some 3 } : Text2SQLState) = .execute_sql ∧
    check_condition ({ is_valid_sql := some false, retry_count := some 1, max_iterations := some 3 } : Text2SQLState) = .generate_sql :=
  ⟨(router_selects_successor _).1 rfl,
   (router_selects_successor _).2.1 rfl (Or.inl rfl),
   (router_selects_successor _).2.1 rfl (Or.inr (by decide)),
   (router_selects_successor _).2.2 rfl rfl (by decide)⟩

/-! ## C6: the validation step's short circuits -/

/-- C6: validation always yields both `is_valid_sql` and `cleaned_query` (the
result type `Bool × String` carries both on every path), and short-circuits
without consulting the LLM collaborator: a missing/empty query or a query that
cleans to empty text yields `is_valid_sql = false`, and empty metadata (with a
query that survives cleaning) yields `is_valid_sql = true` with the cleaned
query.  Independence from the collaborator response `r1`/`r2` expresses that
no LLM call is made on those paths. -/
theorem validation_short_circuits (st : Text2SQLState)
    (r1 r2 : Except LlmErr String) :
    (st.generated_sql_query.getD "" = "" →
      validate_sql_query r1 st = (false, "")) ∧
    (st.generated_sql_query.getD "" ≠ "" →
      clean_sql_query 1000 (st.generated_sql_query.getD "") = "" →
      validate_sql_query r1 st = (false, "")) ∧
    (st.generated_sql_query.getD "" ≠ "" →
      clean_sql_query 1000 (st.generated_sql_query.getD "") ≠ "" →
      st.metadata.getD "" = "" →
      validate_sql_query r1 st =
        (true, clean_sql_query 1000 (st.generated_sql_query.getD ""))) ∧
    (st.generated_sql_query.getD "" = "" ∨
        clean_sql_query 1000 (st.generated_sql_query.getD "") = "" ∨
        st.metadata.getD "" = "" →
      validate_sql_query r1 st = validate_sql_query r2 st) := by
  refine ⟨fun h1 => ?_, fun h1 h2 => ?_, fun h1 h2 h3 => ?_, fun h => ?_⟩
  · simp [validate_sql_query, h1]
  · simp [validate_sql_query, h1, h2]
  · simp [validate_sql_query, h1, h2, h3]
  · rcases h with h | h | h
    · simp [validate_sql_query, h]
    · by_cases h1 : st.generated_sql_query.getD "" = ""
      · simp [validate_sql_query, h1]
      · simp [validate_sql_query, h1, h]
    · by_cases h1 : st.generated_sql_query.getD "" = ""
      · simp [validate_sql_query, h1]
      · by_cases h2 : clean_sql_query 1000 (st.generated_sql_query.getD "") = ""
        · simp [validate_sql_query, h1, h2]
        · simp [validate_sql_query, h1, h2, h]

/-- Witness for C6: the three short-circuit branches on concrete states, with
two different collaborator responses giving identical results. -/
theorem validation_short_circuits_witness :
    validate_sql_query (.ok "VALID") { metadata := some "schema" } = (false, "") ∧
    validate_sql_query (.ok "VALID")
        { generated_sql_query := some "```", metadata := some "schema" } = (false, "") ∧
    validate_sql_query (.error .rateLimited)
        { generated_sql_query := some "SELECT 1" } = (true, "SELECT 1 LIMIT 1000") ∧
    validate_sql_query (.ok "INVALID") { generated_sql_query := some "```" } =
      validate_sql_query (.error .apiError) { generated_sql_query := some "```" } :=
  ⟨(validation_short_circuits _ (.ok "VALID") (.ok "VALID")).1 rfl,
   (validation_short_circuits _ (.ok "VALID") (.ok "VALID")).2.1 (by decide) (by decide),
   (validation_short_circuits _ (.error .rateLimited) (.error .rateLimited)).2.2.1
     (by decide) (by decide) rfl,
   (validation_short_circuits _ (.ok "INVALID") (.error .apiError)).2.2.2
     (Or.inr (Or.inl (by decide)))⟩

/-! ## C7: which steps degrade on collaborator failure -/

/-- Counterexample to C7.  The claim says the summary step converts a
collaborator failure into the deterministic fallback (instead of raising) and
that validation escalates collaborator failures fail-fast.  The source does
the opposite on both counts: with data present, a summary-step
`LLMClientException` is re-raised (first conjunct, not the fallback — second
conjunct), while a validation-step `LLMClientException` is absorbed into
`(False, cleaned_query)` (third conjunct). -/
theorem summary_failure_counterexample :
    generate_summary false (.error .rateLimited) { data := some [["col1"]] } =
      .error .rateLimited ∧
    (Except.error LlmErr.rateLimited : Except LlmErr String) ≠
      .ok (fallbackSummary [["col1"]]) ∧
    validate_sql_query (.error .rateLimited)
        { generated_sql_query := some "SELECT 1", metadata := some "schema" } =
      (false, "SELECT 1 LIMIT 1000") := by
  refine ⟨by decide, by decide, by decide⟩

/-- C7 amended: the validation step is the one that converts its
collaborator's failure into a non-failing result (`is_valid_sql = false` with
the cleaned query); the summary step re-raises LLM collaborator failures and
uses its deterministic row/column-count fallback only for unexpected
non-collaborator errors; the generation and follow-up steps re-raise
collaborator failures. -/
theorem collaborator_failure_handling (st : Text2SQLState) (e : LlmErr)
    (resp : Except LlmErr String) :
    (st.generated_sql_query.getD "" ≠ "" →
      clean_sql_query 1000 (st.generated_sql_query.getD "") ≠ "" →
      st.metadata.getD "" ≠ "" →
      validate_sql_query (.error e) st =
        (false, clean_sql_query 1000 (st.generated_sql_query.getD ""))) ∧
    ((st.data.getD []).all (fun r => r.isEmpty) = false →
      generate_summary false (.error e) st = .error e) ∧
    (st.data.getD [] ≠ [] →
      generate_summary true resp st = .ok (fallbackSummary (st.data.getD []))) ∧
    (st.input_text.getD "" ≠ "" → st.metadata.getD "" ≠ "" →
      generate_sql (.error e) st = .error e) ∧
    (st.metadata.getD "" ≠ "" →
      generate_followup_questions (.error e) st = .error e) := by
  refine ⟨fun h1 h2 h3 => ?_, fun h => ?_, fun h => ?_, fun h1 h2 => ?_, fun h => ?_⟩
  · simp [validate_sql_query, h1, h2, h3]
  · have hne : st.data.getD [] ≠ [] := by
      intro hnil
      rw [hnil] at h
      simp at h
    simp [generate_summary, hne, h]
  · simp [generate_summary, h]
  · simp [generate_sql, h1, h2]
  · simp [generate_followup_questions, h]

/-- Witness for the amended C7 on concrete states and a concrete failure. -/
theorem collaborator_failure_handling_witness :
    validate_sql_query (.error .connectionFailed)
        { generated_sql_query := some "SELECT 1", metadata := some "schema" } =
      (false, "SELECT 1 LIMIT 1000") ∧
    generate_summary false (.error .connectionFailed) { data := some [["a", "b"]] } =
      .error .connectionFailed ∧
    generate_summary true (.ok "four lines")
        { data := some [["a", "b"]] } = .ok "Query returned 1 rows with 2 columns: a, b." ∧
    generate_sql (.error .connectionFailed)
        { input_text := some "q", metadata := some "schema" } = .error .connectionFailed ∧
    generate_followup_questions (.error .connectionFailed) { metadata := some "schema" } =
      .error .connectionFailed := by
  have h := collaborator_failure_handling
    { generated_sql_query := some "SELECT 1", metadata := some "schema" }
    LlmErr.connectionFailed (.ok "four lines")
  have h2 := collaborator_failure_handling { data := some [["a", "b"]] }
    LlmErr.connectionFailed (.ok "four lines")
  have h3 := collaborator_failure_handling
    { input_text := some "q", metadata := some "schema" }
    LlmErr.connectionFailed (.ok "four lines")
  exact ⟨h.1 (by decide) (by decide) (by decide),
    h2.2.1 (by decide),
    by simpa using h2.2.2.1 (by decide),
    h3.2.2.2.1 (by decide) (by decide),
    h3.2.2.2.2 (by decide)⟩

/-! ## C9: normalization is total and maps blank/non-text input to "" -/

/-- An input that is empty, whitespace-only, or not a text value. -/
def blankOrNonText : PyVal → Prop
  | .pyStr s => stripWS s.data = []
  | .nonText => True

instance : DecidablePred blankOrNonText := fun v => by
  unfold blankOrNonText
  cases v <;> infer_instance

/-- C9: normalization is total (`cleanVal` is a total Lean function — no error
branch of `clean_sql_query`/`_ensure_limit` is modelled because none is
reachable in the source) and returns the empty string on every empty,
whitespace-only, or non-text input, for every row cap. -/
theorem normalize_blank_input (maxRows : Nat) (v : PyVal)
    (h : blankOrNonText v) : cleanVal maxRows v = "" := by
  cases v with
  | nonText => rfl
  | pyStr s =>
      unfold blankOrNonText at h
      show (⟨cleanChars maxRows s.data⟩ : String) = ""
      unfold cleanChars
      split
      · rfl
      · rename_i hne
        have hbody : cleanBody s.data = [] := by
          unfold cleanBody
          rw [h]
          simp [stripWS, lstripWS, rstripWS]
        rw [hbody]
        rfl

/-- Witness for C9: empty, whitespace-only and non-text inputs. -/
theorem normalize_blank_input_witness :
    cleanVal 1000 (.pyStr "") = "" ∧
    cleanVal 1000 (.pyStr " \t\n ") = "" ∧
    cleanVal 500 PyVal.nonText = "" :=
  ⟨normalize_blank_input 1000 (.pyStr "") (by decide),
   normalize_blank_input 1000 (.pyStr " \t\n ") (by decide),
   normalize_blank_input 500 .nonText (by trivial)⟩

/-! ## C10: the execution step prefers the cleaned query -/

/-- C10: when `cleaned_query` is present and non-empty it is the query
submitted to the database collaborator; `generated_sql_query` is submitted
only when `cleaned_query` is absent or empty; and the step raises
`SQLExecutionException` (no state update happens) exactly when both are absent
or empty. -/
theorem execution_prefers_cleaned (db : String → Except DbErr (List Row))
    (st : Text2SQLState) :
    (st.cleaned_query.getD "" ≠ "" →
      execute_sql db st = Except.mapError ExecErr.db (db (st.cleaned_query.getD ""))) ∧
    (st.cleaned_query.getD "" = "" → st.generated_sql_query.getD "" ≠ "" →
      execute_sql db st =
        Except.mapError ExecErr.db (db (st.generated_sql_query.getD ""))) ∧
    (st.cleaned_query.getD "" = "" → st.generated_sql_query.getD "" = "" →
      execute_sql db st = .error .noQueryAvailable) := by
  refine ⟨fun h1 => ?_, fun h1 h2 => ?_, fun h1 h2 => ?_⟩
  · simp only [execute_sql, effectiveQuery, h1, if_true, ne_eq,
      not_false_iff, if_pos]
    cases db (st.cleaned_query.getD "") <;> rfl
  · simp only [execute_sql, effectiveQuery, h1, ne_eq, not_true_eq_false,
      if_false, h2, not_false_iff, if_pos, ite_not, if_true]
    cases db (st.generated_sql_query.getD "") <;> rfl
  · simp [execute_sql, effectiveQuery, h1, h2]

/-- Witness for C10: a database collaborator that echoes the submitted query
shows that the cleaned query wins when both are present, the generated query
is used when the cleaned one is empty, and the no-query case raises. -/
theorem execution_prefers_cleaned_witness :
    execute_sql (fun q => .ok [[q]])
        { cleaned_query := some "CLEANED", generated_sql_query := some "RAW" } =
      .ok [["CLEANED"]] ∧
    execute_sql (fun q => .ok [[q]])
        { cleaned_query := some "", generated_sql_query := some "RAW" } =
      .ok [["RAW"]] ∧
    execute_sql (fun q => .ok [[q]]) { cleaned_query := some "" } =
      .error .noQueryAvailable :=
  ⟨(execution_prefers_cleaned _ _).1 (by decide),
   (execution_prefers_cleaned _ _).2.1 (by decide) (by decide),
   (execution_prefers_cleaned _ _).2.2 (by decide) (by decide)⟩

/-! ## Character-class lemmas for the normalizer -/

theorem pyspace_cases (c : Char) (h : isPySpace c = true) :
    c = ' ' ∨ c = '\t' ∨ c = '\n' ∨ c = '\r' ∨ c = '\x0b' ∨ c = '\x0c' := by
  simp only [isPySpace, Bool.or_eq_true, beq_iff_eq] at h
  tauto

theorem pyspace_not_digit (c : Char) (h : isPySpace c = true) :
    isDigitC c = false := by
  rcases pyspace_cases c h with h | h | h | h | h | h <;> subst h <;> decide

theorem digit_not_pyspace (c : Char) (h : isDigitC c = true) :
    isPySpace c = false := by
  by_contra hc
  rw [Bool.not_eq_false] at hc
  rw [pyspace_not_digit c hc] at h
  cases h

theorem digit_ne_semi (c : Char) (h : isDigitC c = true) : (c == ';') = false := by
  by_contra hc
  rw [Bool.not_eq_false, beq_iff_eq] at hc
  subst hc
  cases h

theorem digit_ne_backtick (c : Char) (h : isDigitC c = true) : c ≠ '`' := by
  intro hc
  subst hc
  cases h

theorem pyspace_ne_semi (c : Char) (h : isPySpace c = true) : (c == ';') = false := by
  rcases pyspace_cases c h with h | h | h | h | h | h <;> subst h <;> decide

theorem lower_t_not_pyspace (c : Char) (h : c.toLower = 't') :
    isPySpace c = false := by
  by_contra hc
  rw [Bool.not_eq_false] at hc
  rcases pyspace_cases c hc with h2 | h2 | h2 | h2 | h2 | h2 <;> subst h2 <;> cases h

/-! ## List lemmas for the normalizer -/

theorem dropWhile_append_all {p : Char → Bool} (l1 l2 : List Char)
    (h : ∀ c ∈ l1, p c = true) :
    List.dropWhile p (l1 ++ l2) = List.dropWhile p l2 := by
  induction l1 with
  | nil => rfl
  | cons a t ih =>
      simp only [List.cons_append, List.dropWhile_cons]
      rw [h a (List.mem_cons_self a t)]
      simp only [if_true]
      exact ih (fun c hc => h c (List.mem_cons_of_mem a hc))

theorem dropWhile_eq_self_of_head {p : Char → Bool} (l : List Char)
    (h : ∀ c, l.head? = some c → p c = false) :
    List.dropWhile p l = l := by
  cases l with
  | nil => rfl
  | cons a t =>
      simp only [List.dropWhile_cons]
      rw [h a rfl]
      simp

theorem takeWhile_append_all {p : Char → Bool} (l1 l2 : List Char)
    (h : ∀ c ∈ l1, p c = true) :
    List.takeWhile p (l1 ++ l2) = l1 ++ List.takeWhile p l2 := by
  induction l1 with
  | nil => rfl
  | cons a t ih =>
      simp only [List.cons_append, List.takeWhile_cons]
      rw [h a (List.mem_cons_self a t)]
      simp only [if_true]
      rw [ih (fun c hc => h c (List.mem_cons_of_mem a hc))]

theorem takeWhile_eq_nil_of_head {p : Char → Bool} (l : List Char)
    (h : ∀ c, l.head? = some c → p c = false) :
    List.takeWhile p l = [] := by
  cases l with
  | nil => rfl
  | cons a t =>
      simp only [List.takeWhile_cons]
      rw [h a rfl]
      simp

theorem rstripWS_append_all (l w : List Char) (h : ∀ c ∈ w, isPySpace c = true) :
    rstripWS (l ++ w) = rstripWS l := by
  unfold rstripWS
  rw [List.reverse_append, dropWhile_append_all _ _ (fun c hc => h c (List.mem_reverse.mp hc))]

theorem rstripWS_eq_self (l : List Char)
    (h : ∀ c, l.getLast? = some c → isPySpace c = false) :
    rstripWS l = l := by
  unfold rstripWS
  rw [dropWhile_eq_self_of_head _ (fun c hc => h c (by rwa [List.head?_reverse] at hc)),
    List.reverse_reverse]

theorem rstripSemi_append_all (l w : List Char) (h : ∀ c ∈ w, (c == ';') = true) :
    rstripSemi (l ++ w) = rstripSemi l := by
  unfold rstripSemi
  rw [List.reverse_append, dropWhile_append_all _ _ (fun c hc => h c (List.mem_reverse.mp hc))]

theorem rstripSemi_eq_self (l : List Char)
    (h : ∀ c, l.getLast? = some c → (c == ';') = false) :
    rstripSemi l = l := by
  unfold rstripSemi
  rw [dropWhile_eq_self_of_head _ (fun c hc => h c (by rwa [List.head?_reverse] at hc)),
    List.reverse_reverse]

theorem lstripWS_eq_self (l : List Char)
    (h : ∀ c, l.head? = some c → isPySpace c = false) :
    lstripWS l = l :=
  dropWhile_eq_self_of_head l h

/-- `rstripWS` only removes characters from the end. -/
theorem rstripWS_append_exists (l : List Char) : ∃ t, l = rstripWS l ++ t := by
  unfold rstripWS
  refine ⟨(l.reverse.takeWhile isPySpace).reverse, ?_⟩
  rw [← List.reverse_append, List.takeWhile_append_dropWhile, List.reverse_reverse]

/-- `rstripSemi` only removes characters from the end. -/
theorem rstripSemi_append_exists (l : List Char) : ∃ t, l = rstripSemi l ++ t := by
  unfold rstripSemi
  refine ⟨(l.reverse.takeWhile (· == ';')).reverse, ?_⟩
  rw [← List.reverse_append, List.takeWhile_append_dropWhile, List.reverse_reverse]

theorem head?_dropWhile {p : Char → Bool} (l : List Char) (c : Char)
    (h : (l.dropWhile p).head? = some c) : p c = false := by
  induction l with
  | nil => cases h
  | cons a t ih =>
      simp only [List.dropWhile_cons] at h
      by_cases hp : p a = true
      · rw [hp] at h
        simp only [if_true] at h
        exact ih h
      · rw [Bool.not_eq_true] at hp
        rw [hp] at h
        simp only [Bool.false_eq_true, if_false, List.head?_cons, Option.some.injEq] at h
        subst h
        exact hp

/-! ## Decimal rendering lemmas -/

theorem digitChar_isDigit (d : Nat) (h : d < 10) :
    isDigitC (Nat.digitChar d) = true := by
  interval_cases d <;> decide

theorem digitChar_val (d : Nat) (h : d < 10) : digitVal (Nat.digitChar d) = d := by
  interval_cases d <;> decide

theorem digitsToNat_append_one (a : List Char) (c : Char) :
    digitsToNat (a ++ [c]) = 10 * digitsToNat a + digitVal c := by
  unfold digitsToNat
  rw [List.foldl_append]
  simp [Nat.mul_comm]

theorem natDigitsAux_spec (fuel : Nat) :
    ∀ n, n < fuel → natDigitsAux fuel n ≠ [] ∧
      (∀ c ∈ natDigitsAux fuel n, isDigitC c = true) ∧
      digitsToNat (natDigitsAux fuel n) = n := by
  induction fuel with
  | zero => intro n hn; omega
  | succ fuel ih =>
      intro n hn
      unfold natDigitsAux
      by_cases h10 : n < 10
      · rw [if_pos h10]
        refine ⟨by simp, ?_, ?_⟩
        · intro c hc
          simp only [List.mem_singleton] at hc
          subst hc
          exact digitChar_isDigit n h10
        · show digitsToNat ([] ++ [Nat.digitChar n]) = n
          rw [digitsToNat_append_one]
          show 10 * digitsToNat [] + digitVal (Nat.digitChar n) = n
          rw [digitChar_val n h10]
          have h0 : digitsToNat ([] : List Char) = 0 := rfl
          rw [h0]
          omega
      · rw [if_neg h10]
        have hdiv : n / 10 < fuel := by
          have := Nat.div_lt_self (by omega : 0 < n) (by omega : 1 < 10)
          omega
        obtain ⟨hne, hall, hval⟩ := ih (n / 10) hdiv
        refine ⟨by simp, ?_, ?_⟩
        · intro c hc
          rw [List.mem_append] at hc
          rcases hc with hc | hc
          · exact hall c hc
          · simp only [List.mem_singleton] at hc
            subst hc
            exact digitChar_isDigit _ (Nat.mod_lt n (by omega))
        · rw [digitsToNat_append_one, hval, digitChar_val _ (Nat.mod_lt n (by omega))]
          omega

theorem natDigits_ne_nil (n : Nat) : natDigits n ≠ [] :=
  (natDigitsAux_spec (n + 1) n (by omega)).1

theorem natDigits_all_digit (n : Nat) : ∀ c ∈ natDigits n, isDigitC c = true :=
  (natDigitsAux_spec (n + 1) n (by omega)).2.1

theorem digitsToNat_natDigits (n : Nat) : digitsToNat (natDigits n) = n :=
  (natDigitsAux_spec (n + 1) n (by omega)).2.2

/-! ## The regex match: evaluation and inversion -/

theorem head?_mem {l : List Char} {c : Char} (h : l.head? = some c) : c ∈ l := by
  cases l with
  | nil => cases h
  | cons a t =>
      rw [List.head?_cons, Option.some.injEq] at h
      subst h
      exact List.mem_cons_self a t

theorem isEmpty_false_of_ne_nil {l : List Char} (h : l ≠ []) : l.isEmpty = false := by
  cases l with
  | nil => exact absurd rfl h
  | cons a t => rfl

theorem lw_getLast_lower_t (lw : List Char) (hlw : lw.map Char.toLower = "limit".data) :
    ∃ c, lw.getLast? = some c ∧ c.toLower = 't' := by
  have h := congrArg List.getLast? hlw
  rw [List.getLast?_map] at h
  have hs : ("limit".data).getLast? = some 't' := rfl
  rw [hs, Option.map_eq_some'] at h
  exact h

/-- Evaluating `limit_pattern.search` on a text with the trailing-`LIMIT`
shape: the match is found, and its components are exactly the given
decomposition (the regex groups are forced: the digit group is the maximal
trailing digit run, the whitespace run sits directly before it, and `LIMIT`
directly before that, with a word boundary in front). -/
theorem takeWhile_append_drop {p : Char → Bool} (l : List Char) :
    l.takeWhile p ++ l.drop (l.takeWhile p).length = l := by
  induction l with
  | nil => rfl
  | cons a t ih =>
      simp only [List.takeWhile_cons]
      by_cases hp : p a = true
      · rw [hp]
        simp only [if_true, List.length_cons, List.drop_succ_cons, List.cons_append]
        rw [ih]
      · rw [Bool.not_eq_true] at hp
        rw [hp]
        simp

theorem matchLimit_decomp (pre lw wsp ds : List Char)
    (hlw : lw.map Char.toLower = "limit".data)
    (hwsp : wsp ≠ []) (hwsp2 : ∀ c ∈ wsp, isPySpace c = true)
    (hds : ds ≠ []) (hds2 : ∀ c ∈ ds, isDigitC c = true)
    (hpre : ∀ c, pre.getLast? = some c → isWordC c = false) :
    matchLimit (pre ++ lw ++ wsp ++ ds) = some ⟨pre, lw, wsp, ds⟩ := by
  have hlw5 : lw.length = 5 := by
    have := congrArg List.length hlw
    simpa using this
  have hlwr5 : lw.reverse.length = 5 := by simpa using hlw5
  have hlwrne : lw.reverse ≠ [] := by
    intro hc
    rw [hc] at hlwr5
    cases hlwr5
  have hwspr : wsp.reverse ≠ [] := by simpa using hwsp
  have hdsr : ds.reverse ≠ [] := by simpa using hds
  have hrev : (pre ++ lw ++ wsp ++ ds).reverse =
      ds.reverse ++ (wsp.reverse ++ (lw.reverse ++ pre.reverse)) := by
    simp [List.reverse_append]
  have htd : List.takeWhile isDigitC
      (ds.reverse ++ (wsp.reverse ++ (lw.reverse ++ pre.reverse))) = ds.reverse := by
    rw [takeWhile_append_all _ _ (fun c hc => hds2 c (List.mem_reverse.mp hc))]
    rw [takeWhile_eq_nil_of_head _ (fun c hc =>
      pyspace_not_digit c (hwsp2 c (List.mem_reverse.mp (head?_mem
        (by rwa [List.head?_append_of_ne_nil _ hwspr] at hc)))))]
    rw [List.append_nil]
  have hclast : ∃ c, lw.getLast? = some c ∧ c.toLower = 't' := by
    have h := congrArg List.getLast? hlw
    rw [List.getLast?_map] at h
    have hs : ("limit".data).getLast? = some 't' := rfl
    rw [hs, Option.map_eq_some'] at h
    exact h
  obtain ⟨clast, hclast1, hclast2⟩ := hclast
  have htw : List.takeWhile isPySpace (wsp.reverse ++ (lw.reverse ++ pre.reverse)) =
      wsp.reverse := by
    rw [takeWhile_append_all _ _ (fun c hc => hwsp2 c (List.mem_reverse.mp hc))]
    rw [takeWhile_eq_nil_of_head _ (fun c hc => by
      rw [List.head?_append_of_ne_nil _ hlwrne, List.head?_reverse, hclast1,
        Option.some.injEq] at hc
      exact lower_t_not_pyspace c (hc ▸ hclast2)), List.append_nil]
  have hmap : lw.reverse.map Char.toLower = ['t', 'i', 'm', 'i', 'l'] := by
    rw [List.map_reverse, hlw]
    rfl
  unfold matchLimit
  simp only []
  rw [hrev, htd, isEmpty_false_of_ne_nil hdsr]
  simp only [Bool.false_eq_true, if_false]
  rw [List.drop_left, htw, isEmpty_false_of_ne_nil hwspr]
  simp only [Bool.false_eq_true, if_false]
  rw [List.drop_left]
  rw [List.take_left' hlwr5, List.drop_left' hlwr5, if_pos hmap]
  cases hp : pre.reverse.head? with
  | none =>
      have hpre0 : pre = [] := by
        cases hpe : pre.reverse with
        | nil => simpa using congrArg List.reverse hpe
        | cons a t => rw [hpe] at hp; cases hp
      simp only [hpre0]
      simp [List.reverse_reverse]
  | some c =>
      have hword : isWordC c = false := hpre c (by rwa [List.head?_reverse] at hp)
      simp only []
      rw [hword]
      simp [List.reverse_reverse]


/-- Inversion of a successful `limit_pattern.search`: the matched text splits
into the regex groups with their character-class constraints. -/
theorem matchLimit_some_decomp (w : List Char) (mt : LimitMatch)
    (h : matchLimit w = some mt) :
    w = mt.pre ++ mt.lw ++ mt.ws ++ mt.ds ∧
      mt.lw.map Char.toLower = "limit".data ∧
      mt.ws ≠ [] ∧ (∀ c ∈ mt.ws, isPySpace c = true) ∧
      mt.ds ≠ [] ∧ (∀ c ∈ mt.ds, isDigitC c = true) ∧
      (∀ c, mt.pre.getLast? = some c → isWordC c = false) := by
  unfold matchLimit at h
  simp only [] at h
  set r := w.reverse with hr
  set dsr := r.takeWhile isDigitC with hdsr
  by_cases h1 : dsr.isEmpty
  · rw [if_pos h1] at h
    cases h
  · rw [if_neg h1] at h
    set r1 := r.drop dsr.length with hr1
    set wsr := r1.takeWhile isPySpace with hwsr
    by_cases h2 : wsr.isEmpty
    · rw [if_pos h2] at h
      cases h
    · rw [if_neg h2] at h
      set r2 := r1.drop wsr.length with hr2
      set lwr := r2.take 5 with hlwr
      by_cases h3 : lwr.map Char.toLower = ['t', 'i', 'm', 'i', 'l']
      · rw [if_pos h3] at h
        have hds_all : ∀ c ∈ dsr, isDigitC c = true := fun c hc =>
          List.mem_takeWhile_imp hc
        have hws_all : ∀ c ∈ wsr, isPySpace c = true := fun c hc =>
          List.mem_takeWhile_imp hc
        have hdsne : dsr ≠ [] := by
          intro hc
          rw [hc] at h1
          exact h1 rfl
        have hwsne : wsr ≠ [] := by
          intro hc
          rw [hc] at h2
          exact h2 rfl
        have hrsplit : r = dsr ++ r1 := (takeWhile_append_drop r).symm
        have hr1split : r1 = wsr ++ r2 := (takeWhile_append_drop r1).symm
        have hr2split : r2 = lwr ++ r2.drop 5 := by
          rw [hlwr]
          rw [List.take_append_drop]
        cases hh : (r2.drop 5).head? with
        | none =>
            rw [hh] at h
            simp only [Option.some.injEq] at h
            have hrest : r2.drop 5 = [] := by
              cases hre : r2.drop 5 with
              | nil => rfl
              | cons a t => rw [hre] at hh; cases hh
            subst h
            refine ⟨?_, ?_, by simpa using hwsne, ?_, by simpa using hdsne, ?_, ?_⟩
            · have hwr : w = r.reverse := by rw [hr, List.reverse_reverse]
              rw [hwr]
              conv_lhs => rw [hrsplit, hr1split, hr2split, hrest]
              simp [List.reverse_append]
            · rw [List.map_reverse, h3]
              rfl
            · intro c hc
              exact hws_all c (List.mem_reverse.mp hc)
            · intro c hc
              exact hds_all c (List.mem_reverse.mp hc)
            · intro c hc
              cases hc
        | some c =>
            rw [hh] at h
            simp only [] at h
            by_cases hw : isWordC c
            · rw [if_pos hw] at h
              cases h
            · rw [if_neg hw] at h
              simp only [Option.some.injEq] at h
              subst h
              refine ⟨?_, ?_, by simpa using hwsne, ?_, by simpa using hdsne, ?_, ?_⟩
              · have hwr : w = r.reverse := by rw [hr, List.reverse_reverse]
                rw [hwr]
                conv_lhs => rw [hrsplit, hr1split, hr2split]
                simp [List.reverse_append]
              · rw [List.map_reverse, h3]
                rfl
              · intro c' hc
                exact hws_all c' (List.mem_reverse.mp hc)
              · intro c' hc
                exact hds_all c' (List.mem_reverse.mp hc)
              · intro c' hc
                simp only [List.getLast?_reverse] at hc
                rw [hh, Option.some.injEq] at hc
                subst hc
                simpa using hw
      · rw [if_neg h3] at h
        cases h

/-! ## The trailing-LIMIT invariant (C2) -/

/-- Spec-side predicate: the text ends with a trailing clause
`LIMIT n` — case-insensitive `LIMIT`, at least one whitespace character, a
digit group evaluating to `n`, and a word boundary in front of `LIMIT`. -/
def TrailingLimit (r : List Char) (n : Nat) : Prop :=
  ∃ pre lw wsp ds, r = pre ++ lw ++ wsp ++ ds ∧
    lw.map Char.toLower = "limit".data ∧
    wsp ≠ [] ∧ (∀ c ∈ wsp, isPySpace c = true) ∧
    ds ≠ [] ∧ (∀ c ∈ ds, isDigitC c = true) ∧
    (∀ c, pre.getLast? = some c → isWordC c = false) ∧
    digitsToNat ds = n

/-- The spec-side trailing-clause predicate coincides with a successful
`limit_pattern.search`. -/
theorem trailingLimit_iff_matchLimit (r : List Char) (n : Nat) :
    TrailingLimit r n ↔ ∃ mt, matchLimit r = some mt ∧ digitsToNat mt.ds = n := by
  constructor
  · rintro ⟨pre, lw, wsp, ds, hsplit, hlw, hwsp, hwsp2, hds, hds2, hpre, hval⟩
    subst hsplit
    exact ⟨⟨pre, lw, wsp, ds⟩,
      matchLimit_decomp pre lw wsp ds hlw hwsp hwsp2 hds hds2 hpre, hval⟩
  · rintro ⟨mt, hmt, hval⟩
    obtain ⟨hsplit, hlw, hwsp, hwsp2, hds, hds2, hpre⟩ := matchLimit_some_decomp r mt hmt
    exact ⟨mt.pre, mt.lw, mt.ws, mt.ds, hsplit, hlw, hwsp, hwsp2, hds, hds2, hpre, hval⟩

/-- A text has at most one trailing `LIMIT` value: the regex groups are
forced, so the clause is unique. -/
theorem trailingLimit_value_unique (r : List Char) (n n' : Nat)
    (h : TrailingLimit r n) (h' : TrailingLimit r n') : n' = n := by
  rw [trailingLimit_iff_matchLimit] at h h'
  obtain ⟨mt1, hm1, hv1⟩ := h
  obtain ⟨mt2, hm2, hv2⟩ := h'
  rw [hm1, Option.some.injEq] at hm2
  subst hm2
  rw [← hv1, ← hv2]

theorem cleanChars_of_ne (m : Nat) (l : List Char) (h : l ≠ []) :
    cleanChars m l = ensureLimit m (cleanBody l) := by
  unfold cleanChars
  rw [isEmpty_false_of_ne_nil h]
  simp

theorem ensureLimit_of_ne (m : Nat) (b : List Char) (h : b ≠ []) :
    ensureLimit m b = ensureCore m (semiPrep b) := by
  unfold ensureLimit
  rw [isEmpty_false_of_ne_nil h]
  simp

theorem getLast?_mem {l : List Char} {c : Char} (h : l.getLast? = some c) : c ∈ l := by
  rw [← List.head?_reverse] at h
  exact List.mem_reverse.mp (head?_mem h)

theorem natDigits_getLast_digit (n : Nat) :
    ∃ c, (natDigits n).getLast? = some c ∧ isDigitC c = true := by
  cases hl : (natDigits n).getLast? with
  | none =>
      rw [List.getLast?_eq_none_iff] at hl
      exact absurd hl (natDigits_ne_nil n)
  | some c => exact ⟨c, rfl, natDigits_all_digit n c (getLast?_mem hl)⟩

/-- C2 (amended with the non-empty proviso): every non-empty output of
`normalize(x, 1000)` ends with exactly one trailing `LIMIT n` clause, with
`n ≤ 1000`. -/
theorem normalize_trailing_limit (x : String)
    (h : clean_sql_query 1000 x ≠ "") :
    ∃ n, n ≤ 1000 ∧ TrailingLimit (clean_sql_query 1000 x).data n ∧
      ∀ n', TrailingLimit (clean_sql_query 1000 x).data n' → n' = n := by
  have hdata : (clean_sql_query 1000 x).data = cleanChars 1000 x.data := rfl
  have hne : cleanChars 1000 x.data ≠ [] := by
    intro hc
    apply h
    show (⟨cleanChars 1000 x.data⟩ : String) = ""
    rw [hc]
  have hx : x.data ≠ [] := by
    intro hc
    apply hne
    rw [hc]
    rfl
  have hb : cleanBody x.data ≠ [] := by
    intro hc
    apply hne
    rw [cleanChars_of_ne _ _ hx]
    unfold ensureLimit
    rw [hc]
    rfl
  rw [hdata, cleanChars_of_ne _ _ hx, ensureLimit_of_ne _ _ hb]
  cases hM : matchLimit (semiPrep (cleanBody x.data)) with
  | none =>
      have hres : ensureCore 1000 (semiPrep (cleanBody x.data)) =
          (semiPrep (cleanBody x.data) ++ [' ']) ++ "LIMIT".data ++ [' '] ++
            natDigits 1000 := by
        unfold ensureCore
        rw [hM]
        have hsp : (" LIMIT ".data : List Char) = [' '] ++ "LIMIT".data ++ [' '] := rfl
        rw [hsp]
        simp [List.append_assoc]
      rw [hres]
      have htl : TrailingLimit ((semiPrep (cleanBody x.data) ++ [' ']) ++
          "LIMIT".data ++ [' '] ++ natDigits 1000) 1000 := by
        refine ⟨semiPrep (cleanBody x.data) ++ [' '], "LIMIT".data, [' '],
          natDigits 1000, rfl, by decide, by decide, by decide,
          natDigits_ne_nil 1000, natDigits_all_digit 1000, ?_, by decide⟩
        intro c hc
        rw [List.getLast?_append_of_ne_nil _ (by decide : ([' '] : List Char) ≠ [])] at hc
        have h1 : ([' '] : List Char).getLast? = some ' ' := rfl
        rw [h1, Option.some.injEq] at hc
        subst hc
        decide
      exact ⟨1000, le_refl _, htl, fun n' hn' => trailingLimit_value_unique _ _ _ htl hn'⟩
  | some mt =>
      obtain ⟨hsplit, hlw, hwsp, hwsp2, hds, hds2, hpre⟩ :=
        matchLimit_some_decomp _ mt hM
      by_cases hgt : digitsToNat mt.ds > 1000
      · have hres : ensureCore 1000 (semiPrep (cleanBody x.data)) =
            mt.pre ++ "LIMIT".data ++ [' '] ++ natDigits 1000 := by
          unfold ensureCore
          rw [hM]
          simp only []
          rw [if_pos hgt]
          simp [List.append_assoc]
        rw [hres]
        have htl : TrailingLimit (mt.pre ++ "LIMIT".data ++ [' '] ++ natDigits 1000)
            1000 :=
          ⟨mt.pre, "LIMIT".data, [' '], natDigits 1000, rfl, by decide, by decide,
            by decide, natDigits_ne_nil 1000, natDigits_all_digit 1000, hpre, by decide⟩
        exact ⟨1000, le_refl _, htl, fun n' hn' => trailingLimit_value_unique _ _ _ htl hn'⟩
      · have hres : ensureCore 1000 (semiPrep (cleanBody x.data)) =
            semiPrep (cleanBody x.data) := by
          unfold ensureCore
          rw [hM]
          simp only []
          rw [if_neg hgt]
        rw [hres]
        have htl : TrailingLimit (semiPrep (cleanBody x.data)) (digitsToNat mt.ds) :=
          ⟨mt.pre, mt.lw, mt.ws, mt.ds, hsplit, hlw, hwsp, hwsp2, hds, hds2, hpre, rfl⟩
        exact ⟨digitsToNat mt.ds, by omega, htl,
          fun n' hn' => trailingLimit_value_unique _ _ _ htl hn'⟩

/-- Witness for C2 (amended): a concrete non-empty normalization carries its
unique trailing `LIMIT` clause. -/
theorem normalize_trailing_limit_witness :
    ∃ n, n ≤ 1000 ∧ TrailingLimit (clean_sql_query 1000 "SELECT 1").data n ∧
      ∀ n', TrailingLimit (clean_sql_query 1000 "SELECT 1").data n' → n' = n :=
  normalize_trailing_limit "SELECT 1" (by decide)

/-- Counterexample to C2 as frozen: for the empty input (and any input that
cleans to empty text), `normalize(x, 1000)` is the empty string, which ends
with no `LIMIT` clause at all. -/
theorem normalize_trailing_limit_counterexample :
    clean_sql_query 1000 "" = "" ∧
      ¬ ∃ n, TrailingLimit (clean_sql_query 1000 "").data n := by
  refine ⟨rfl, ?_⟩
  rintro ⟨n, pre, lw, wsp, ds, hsplit, -, -, -, hds, -⟩
  have hlen := congrArg List.length hsplit
  simp only [List.length_append] at hlen
  have : ds.length = 0 := by
    have h0 : (clean_sql_query 1000 "").data.length = 0 := rfl
    omega
  exact hds (List.length_eq_zero.mp this)

/-! ## Idempotence machinery (C1) -/

theorem append_ne_nil_left {l1 l2 : List Char} (h : l1 ≠ []) : l1 ++ l2 ≠ [] :=
  fun hq => h (List.append_eq_nil.mp hq).1

theorem stripWS_head (l : List Char) :
    ∀ c, (stripWS l).head? = some c → isPySpace c = false := by
  intro c hc
  unfold stripWS lstripWS at hc
  exact head?_dropWhile _ c hc

theorem cleanBody_head (q : List Char) :
    ∀ c, (cleanBody q).head? = some c → isPySpace c = false := by
  intro c hc
  unfold cleanBody at hc
  simp only [] at hc
  exact stripWS_head _ c hc

/-- `semiPrep` only removes characters from the end, so a non-empty result
keeps the original first character. -/
theorem semiPrep_head (b : List Char) (hne : semiPrep b ≠ []) :
    (semiPrep b).head? = b.head? := by
  obtain ⟨t1, ht1⟩ := rstripWS_append_exists (rstripSemi (rstripWS b))
  obtain ⟨t2, ht2⟩ := rstripSemi_append_exists (rstripWS b)
  obtain ⟨t3, ht3⟩ := rstripWS_append_exists b
  have hne' : rstripWS (rstripSemi (rstripWS b)) ≠ [] := hne
  have hb : b = ((rstripWS (rstripSemi (rstripWS b)) ++ t1) ++ t2) ++ t3 := by
    conv_lhs => rw [ht3, ht2, ht1]
  show (rstripWS (rstripSemi (rstripWS b))).head? = b.head?
  conv_rhs => rw [hb]
  rw [List.head?_append_of_ne_nil _ (append_ne_nil_left (append_ne_nil_left hne')),
    List.head?_append_of_ne_nil _ (append_ne_nil_left hne'),
    List.head?_append_of_ne_nil _ hne']

/-- If a text satisfies the invariants of a `_ensure_limit` output — non-empty,
no leading whitespace, a trailing digit, no leading fence, and a trailing
`LIMIT` clause whose value is within the cap — then the whole normalizer maps
it to itself. -/
theorem clean_fix (m : Nat) (r : List Char) (hne : r ≠ [])
    (hhead : ∀ c, r.head? = some c → isPySpace c = false)
    (hlast : ∀ c, r.getLast? = some c → isDigitC c = true)
    (hf3 : r.take 3 ≠ "```".data)
    (mt : LimitMatch) (hM : matchLimit r = some mt)
    (hv : digitsToNat mt.ds ≤ m) :
    cleanChars m r = r := by
  have hrstrip : rstripWS r = r :=
    rstripWS_eq_self r (fun c hc => digit_not_pyspace c (hlast c hc))
  have hlstrip : lstripWS r = r := lstripWS_eq_self r hhead
  have hstrip : stripWS r = r := by
    unfold stripWS
    rw [hrstrip, hlstrip]
  have hsemi : rstripSemi r = r :=
    rstripSemi_eq_self r (fun c hc => digit_ne_semi c (hlast c hc))
  have hprep : semiPrep r = r := by
    unfold semiPrep
    rw [hrstrip, hsemi, hrstrip]
  have hrev3 : r.reverse.take 3 ≠ "```".data := by
    intro hc
    have h1 : r.reverse.head? = some '`' := by
      cases hrv : r.reverse with
      | nil => rw [hrv] at hc; cases hc
      | cons a t =>
          rw [hrv] at hc
          have h2 : (List.take 3 (a :: t)).head? = some a := rfl
          rw [hc] at h2
          injection h2 with h3
          rw [← h3]
          rfl
    rw [List.head?_reverse] at h1
    exact absurd (hlast '`' h1) (by decide)
  have hbody : cleanBody r = r := by
    unfold cleanBody
    simp only []
    rw [hstrip, if_neg hf3, if_neg hrev3]
    exact hstrip
  rw [cleanChars_of_ne m r hne, hbody, ensureLimit_of_ne m r hne, hprep]
  unfold ensureCore
  rw [hM]
  simp only []
  rw [if_neg (by omega)]

theorem space_getLast_boundary (l : List Char) :
    ∀ c, (l ++ [' ']).getLast? = some c → isWordC c = false := by
  intro c hc
  rw [List.getLast?_append_of_ne_nil _ (by decide : ([' '] : List Char) ≠ [])] at hc
  have h1 : ([' '] : List Char).getLast? = some ' ' := rfl
  rw [h1, Option.some.injEq] at hc
  subst hc
  decide

/-- Every output of the `LIMIT`-adjustment core satisfies the invariants
needed for a fixpoint: non-empty, leading character preserved (never
whitespace), trailing digit, never starting with a fence, and a trailing
`LIMIT` clause within the cap. -/
theorem ensureCore_props (m : Nat) (w : List Char) (hwne : w ≠ [])
    (hwhead : ∀ c, w.head? = some c → isPySpace c = false)
    (hwf3 : w.take 3 ≠ "```".data) :
    ensureCore m w ≠ [] ∧
      (∀ c, (ensureCore m w).head? = some c → isPySpace c = false) ∧
      (∀ c, (ensureCore m w).getLast? = some c → isDigitC c = true) ∧
      (ensureCore m w).take 3 ≠ "```".data ∧
      ∃ mt, matchLimit (ensureCore m w) = some mt ∧ digitsToNat mt.ds ≤ m := by
  cases hM : matchLimit w with
  | none =>
      have hr : ensureCore m w =
          (w ++ [' ']) ++ "LIMIT".data ++ [' '] ++ natDigits m := by
        unfold ensureCore
        rw [hM]
        simp [List.append_assoc]
      have hmatch : matchLimit ((w ++ [' ']) ++ "LIMIT".data ++ [' '] ++ natDigits m) =
          some ⟨w ++ [' '], "LIMIT".data, [' '], natDigits m⟩ :=
        matchLimit_decomp _ _ _ _ (by decide) (by decide) (by decide)
          (natDigits_ne_nil m) (natDigits_all_digit m) (space_getLast_boundary w)
      rw [hr]
      refine ⟨?_, ?_, ?_, ?_, ⟨_, hmatch, le_of_eq (digitsToNat_natDigits m)⟩⟩
      · intro hq
        rw [List.append_eq_nil] at hq
        exact natDigits_ne_nil m hq.2
      · intro c hc
        rw [List.head?_append_of_ne_nil _
            (append_ne_nil_left (append_ne_nil_left (append_ne_nil_left hwne))),
          List.head?_append_of_ne_nil _ (append_ne_nil_left (append_ne_nil_left hwne)),
          List.head?_append_of_ne_nil _ (append_ne_nil_left hwne),
          List.head?_append_of_ne_nil _ hwne] at hc
        exact hwhead c hc
      · intro c hc
        rw [List.getLast?_append_of_ne_nil _ (natDigits_ne_nil m)] at hc
        exact natDigits_all_digit m c (getLast?_mem hc)
      · rcases w with _ | ⟨a, _ | ⟨b2, _ | ⟨c3, rest⟩⟩⟩
        · exact absurd rfl hwne
        · intro hq
          have ht : ((([a] ++ [' ']) ++ "LIMIT".data ++ [' '] ++ natDigits m)).take 3 =
              [a, ' ', 'L'] := rfl
          rw [ht] at hq
          injection hq with h1 hq2
          injection hq2 with h2 _
          exact absurd h2 (by decide)
        · intro hq
          have ht : ((([a, b2] ++ [' ']) ++ "LIMIT".data ++ [' '] ++ natDigits m)).take 3 =
              [a, b2, ' '] := rfl
          rw [ht] at hq
          injection hq with h1 hq2
          injection hq2 with h2 hq3
          injection hq3 with h3 _
          exact absurd h3 (by decide)
        · intro hq
          apply hwf3
          have ht : ((((a :: b2 :: c3 :: rest) ++ [' ']) ++ "LIMIT".data ++ [' '] ++
              natDigits m)).take 3 = [a, b2, c3] := rfl
          rw [ht] at hq
          exact hq
  | some mt =>
      obtain ⟨p0, l0, s0, d0⟩ := mt
      obtain ⟨hsplit, hlw, hwsp, hwsp2, hds, hds2, hpre⟩ :=
        matchLimit_some_decomp w ⟨p0, l0, s0, d0⟩ hM
      simp only [] at hsplit hlw hwsp hwsp2 hds hds2 hpre
      by_cases hgt : digitsToNat d0 > m
      · have hr : ensureCore m w = p0 ++ "LIMIT".data ++ [' '] ++ natDigits m := by
          unfold ensureCore
          rw [hM]
          simp only []
          rw [if_pos hgt]
          simp [List.append_assoc]
        have hmatch : matchLimit (p0 ++ "LIMIT".data ++ [' '] ++ natDigits m) =
            some ⟨p0, "LIMIT".data, [' '], natDigits m⟩ :=
          matchLimit_decomp _ _ _ _ (by decide) (by decide) (by decide)
            (natDigits_ne_nil m) (natDigits_all_digit m) hpre
        rw [hr]
        refine ⟨?_, ?_, ?_, ?_, ⟨_, hmatch, le_of_eq (digitsToNat_natDigits m)⟩⟩
        · intro hq
          rw [List.append_eq_nil] at hq
          exact natDigits_ne_nil m hq.2
        · intro c hc
          rcases p0 with _ | ⟨a, t⟩
          · have h1 : (([] ++ "LIMIT".data ++ [' '] ++ natDigits m)).head? = some 'L' :=
              rfl
            rw [h1, Option.some.injEq] at hc
            subst hc
            decide
          · have hpne : (a :: t) ≠ [] := by intro hq; cases hq
            rw [List.head?_append_of_ne_nil _ (append_ne_nil_left (append_ne_nil_left hpne)),
              List.head?_append_of_ne_nil _ (append_ne_nil_left hpne),
              List.head?_append_of_ne_nil _ hpne] at hc
            apply hwhead c
            rw [hsplit,
              List.head?_append_of_ne_nil _ (append_ne_nil_left (append_ne_nil_left hpne)),
              List.head?_append_of_ne_nil _ (append_ne_nil_left hpne),
              List.head?_append_of_ne_nil _ hpne]
            exact hc
        · intro c hc
          rw [List.getLast?_append_of_ne_nil _ (natDigits_ne_nil m)] at hc
          exact natDigits_all_digit m c (getLast?_mem hc)
        · rw [hsplit] at hwf3
          rcases p0 with _ | ⟨a, _ | ⟨b2, _ | ⟨c3, rest⟩⟩⟩
          · intro hq
            have ht : (([] ++ "LIMIT".data ++ [' '] ++ natDigits m)).take 3 =
                ['L', 'I', 'M'] := rfl
            rw [ht] at hq
            injection hq with h1 _
            exact absurd h1 (by decide)
          · intro hq
            have ht : (([a] ++ "LIMIT".data ++ [' '] ++ natDigits m)).take 3 =
                [a, 'L', 'I'] := rfl
            rw [ht] at hq
            injection hq with h1 hq2
            injection hq2 with h2 _
            exact absurd h2 (by decide)
          · intro hq
            have ht : (([a, b2] ++ "LIMIT".data ++ [' '] ++ natDigits m)).take 3 =
                [a, b2, 'L'] := rfl
            rw [ht] at hq
            injection hq with h1 hq2
            injection hq2 with h2 hq3
            injection hq3 with h3 _
            exact absurd h3 (by decide)
          · intro hq
            apply hwf3
            have ht : (((a :: b2 :: c3 :: rest) ++ "LIMIT".data ++ [' '] ++
                natDigits m)).take 3 = [a, b2, c3] := rfl
            have ht2 : (((a :: b2 :: c3 :: rest) ++ l0 ++ s0 ++ d0)).take 3 =
                [a, b2, c3] := rfl
            rw [ht] at hq
            rw [ht2]
            exact hq
      · have hr : ensureCore m w = w := by
          unfold ensureCore
          rw [hM]
          simp only []
          rw [if_neg hgt]
        rw [hr]
        refine ⟨hwne, hwhead, ?_, hwf3, ⟨⟨p0, l0, s0, d0⟩, hM, show digitsToNat d0 ≤ m by omega⟩⟩
        intro c hc
        rw [hsplit, List.getLast?_append_of_ne_nil _ hds] at hc
        exact hds2 c (getLast?_mem hc)

/-- C1 (amended): `normalize` is idempotent whenever the working text (the
cleaned body after trailing whitespace/semicolon removal) is non-empty and
does not itself start with a backtick fence.  The counterexample below shows
the unrestricted claim is false. -/
theorem normalize_idempotent_amended (m : Nat) (x : String)
    (hw : semiPrep (cleanBody x.data) ≠ [])
    (hf : (semiPrep (cleanBody x.data)).take 3 ≠ "```".data) :
    clean_sql_query m (clean_sql_query m x) = clean_sql_query m x := by
  have hb : cleanBody x.data ≠ [] := by
    intro hc
    apply hw
    rw [hc]
    rfl
  have hx : x.data ≠ [] := by
    intro hc
    apply hb
    rw [hc]
    rfl
  have hwhead : ∀ c, (semiPrep (cleanBody x.data)).head? = some c →
      isPySpace c = false := by
    intro c hc
    rw [semiPrep_head _ hw] at hc
    exact cleanBody_head _ c hc
  obtain ⟨hrne, hrhead, hrlast, hrf3, mt', hM', hval'⟩ :=
    ensureCore_props m (semiPrep (cleanBody x.data)) hw hwhead hf
  have hcx : (clean_sql_query m x).data = ensureCore m (semiPrep (cleanBody x.data)) := by
    show cleanChars m x.data = _
    rw [cleanChars_of_ne _ _ hx, ensureLimit_of_ne _ _ hb]
  have h2 : cleanChars m (clean_sql_query m x).data = (clean_sql_query m x).data := by
    rw [hcx]
    exact clean_fix m _ hrne hrhead hrlast hrf3 mt' hM' hval'
  show (⟨cleanChars m (clean_sql_query m x).data⟩ : String) = clean_sql_query m x
  rw [h2]

/-- Counterexample to C1 as frozen: for `x = ";"` the first pass yields
`" LIMIT 1000"` (the append branch keeps a leading space when the working
text is empty), and the second pass strips that space, so
`normalize(normalize(x, 1000), 1000) ≠ normalize(x, 1000)`. -/
theorem normalize_idempotent_counterexample :
    clean_sql_query 1000 ";" = " LIMIT 1000" ∧
      clean_sql_query 1000 (clean_sql_query 1000 ";") = "LIMIT 1000" ∧
      clean_sql_query 1000 (clean_sql_query 1000 ";") ≠ clean_sql_query 1000 ";" := by
  refine ⟨by decide, by decide, by decide⟩

/-- Witness for C1 (amended) on a concrete query and cap. -/
theorem normalize_idempotent_amended_witness :
    clean_sql_query 700 (clean_sql_query 700 "SELECT * FROM t;") =
      clean_sql_query 700 "SELECT * FROM t;" :=
  normalize_idempotent_amended 700 "SELECT * FROM t;" (by decide) (by decide)

/-! ## Semicolon stripping (C3) -/

/-- Counterexample to C3 as frozen: `working_query.rstrip().rstrip(';')`
removes *every* trailing semicolon, so an input ending in `";;"` retains no
semicolon — the claim predicts `"SELECT 1; LIMIT 1000"`, the code produces
`"SELECT 1 LIMIT 1000"` with no semicolon at all. -/
theorem semicolon_strip_counterexample :
    clean_sql_query 1000 "SELECT 1;;" = "SELECT 1 LIMIT 1000" ∧
      List.count ';' (clean_sql_query 1000 "SELECT 1;;").data = 0 ∧
      clean_sql_query 1000 "SELECT 1;;" ≠ "SELECT 1; LIMIT 1000" := by
  refine ⟨by decide, by decide, by decide⟩

/-- C3 (amended): before the `LIMIT` step the normalizer strips the *entire*
trailing run of semicolons together with the whitespace around it (first
conjunct), and a semicolon is never re-added at the end — every normalizer
output is empty or ends in a digit (second conjunct). -/
theorem semicolon_run_stripped :
    (∀ (b w1 w2 : List Char) (k : Nat),
        (∀ c ∈ w1, isPySpace c = true) → (∀ c ∈ w2, isPySpace c = true) →
        (∀ c, b.getLast? = some c → isPySpace c = false ∧ c ≠ ';') →
        semiPrep (b ++ w1 ++ List.replicate k ';' ++ w2) = b) ∧
    (∀ (m : Nat) (x : String), clean_sql_query m x = "" ∨
        ∃ c, (clean_sql_query m x).data.getLast? = some c ∧ isDigitC c = true) := by
  constructor
  · intro b w1 w2 k h1 h2 hb
    have hbws : rstripWS b = b := rstripWS_eq_self b (fun c hc => (hb c hc).1)
    have hbsemi : rstripSemi b = b :=
      rstripSemi_eq_self b (fun c hc => beq_eq_false_iff_ne.mpr (hb c hc).2)
    unfold semiPrep
    rw [rstripWS_append_all _ _ h2]
    cases k with
    | zero =>
        rw [List.replicate_zero, List.append_nil]
        rw [rstripWS_append_all _ _ h1, hbws, hbsemi, hbws]
    | succ j =>
        have hrep : List.replicate (j + 1) ';' ≠ [] := by simp
        have hlastsemi : ∀ c, ((b ++ w1) ++ List.replicate (j + 1) ';').getLast? = some c →
            isPySpace c = false := by
          intro c hc
          rw [List.getLast?_append_of_ne_nil _ hrep] at hc
          have hrl : (List.replicate (j + 1) ';').getLast? = some ';' := by
            rw [← List.head?_reverse, List.reverse_replicate]
            rfl
          rw [hrl, Option.some.injEq] at hc
          subst hc
          decide
        rw [rstripWS_eq_self _ hlastsemi]
        rw [rstripSemi_append_all _ _ (fun c hc => by
          rw [List.eq_of_mem_replicate hc]
          decide)]
        have hbw1 : rstripSemi (b ++ w1) = b ++ w1 := by
          apply rstripSemi_eq_self
          intro c hc
          cases hw1 : w1 with
          | nil =>
              rw [hw1, List.append_nil] at hc
              exact beq_eq_false_iff_ne.mpr (hb c hc).2
          | cons a t =>
              rw [hw1, List.getLast?_append_of_ne_nil _ (by intro hq; cases hq)] at hc
              exact pyspace_ne_semi c (h1 c (by rw [hw1]; exact getLast?_mem hc))
        rw [hbw1, rstripWS_append_all _ _ h1, hbws]
  · intro m x
    by_cases hx : x.data = []
    · left
      show (⟨cleanChars m x.data⟩ : String) = ""
      rw [hx]
      rfl
    · by_cases hb : cleanBody x.data = []
      · left
        show (⟨cleanChars m x.data⟩ : String) = ""
        rw [cleanChars_of_ne _ _ hx]
        unfold ensureLimit
        rw [hb]
        rfl
      · right
        have hdata : (clean_sql_query m x).data =
            ensureCore m (semiPrep (cleanBody x.data)) := by
          show cleanChars m x.data = _
          rw [cleanChars_of_ne _ _ hx, ensureLimit_of_ne _ _ hb]
        rw [hdata]
        cases hM : matchLimit (semiPrep (cleanBody x.data)) with
        | none =>
            obtain ⟨c, hcl, hcd⟩ := natDigits_getLast_digit m
            have hr : ensureCore m (semiPrep (cleanBody x.data)) =
                (semiPrep (cleanBody x.data) ++ " LIMIT ".data) ++ natDigits m := by
              unfold ensureCore
              rw [hM]
            rw [hr]
            refine ⟨c, ?_, hcd⟩
            rw [List.getLast?_append_of_ne_nil _ (natDigits_ne_nil m)]
            exact hcl
        | some mt =>
            obtain ⟨p0, l0, s0, d0⟩ := mt
            obtain ⟨hsplit, hlw, hwsp, hwsp2, hds, hds2, hpre⟩ :=
              matchLimit_some_decomp _ ⟨p0, l0, s0, d0⟩ hM
            simp only [] at hsplit hds hds2
            by_cases hgt : digitsToNat d0 > m
            · obtain ⟨c, hcl, hcd⟩ := natDigits_getLast_digit m
              have hr : ensureCore m (semiPrep (cleanBody x.data)) =
                  (p0 ++ "LIMIT ".data) ++ natDigits m := by
                unfold ensureCore
                rw [hM]
                simp only []
                rw [if_pos hgt]
              rw [hr]
              refine ⟨c, ?_, hcd⟩
              rw [List.getLast?_append_of_ne_nil _ (natDigits_ne_nil m)]
              exact hcl
            · have hr : ensureCore m (semiPrep (cleanBody x.data)) =
                  semiPrep (cleanBody x.data) := by
                unfold ensureCore
                rw [hM]
                simp only []
                rw [if_neg hgt]
              rw [hr]
              cases hdl : d0.getLast? with
              | none =>
                  rw [List.getLast?_eq_none_iff] at hdl
                  exact absurd hdl hds
              | some c =>
                  refine ⟨c, ?_, hds2 c (getLast?_mem hdl)⟩
                  rw [hsplit, List.getLast?_append_of_ne_nil _ hds]
                  exact hdl

/-- Witness for C3 (amended): the whole run `";;"` (with surrounding blanks)
is stripped from a concrete query, and a concrete normalization ends in a
digit, not a semicolon. -/
theorem semicolon_run_stripped_witness :
    semiPrep ("SELECT 1".data ++ [' '] ++ List.replicate 2 ';' ++ [' ']) =
      "SELECT 1".data ∧
    (clean_sql_query 1000 "SELECT 1;;" = "" ∨
      ∃ c, (clean_sql_query 1000 "SELECT 1;;").data.getLast? = some c ∧
        isDigitC c = true) :=
  ⟨semicolon_run_stripped.1 "SELECT 1".data [' '] [' '] 2 (by decide) (by decide)
      (by decide),
   semicolon_run_stripped.2 1000 "SELECT 1;;"⟩

end Text2SQL
